import Mathlib

/-!
Verification of the vroom local-search core: shallow embedding of the
CrossExchange operator (problems/cvrp/operators/cross_exchange.cpp) and of the
JSON input parsing routine (utils/input parsing), together with theorems about
the gain computation, validity check, application, and parse-time validation.

Machine integers: C++ `Cost` is an unsigned integer and `Gain` a signed 64-bit
integer; the values involved (sums of a handful of matrix entries) are far from
either bound, so costs are modelled as `Nat` and gains as `Int`.
-/

namespace vroom

/-- A time window `[start, end]`, as in structures/vroom/time_window.h. -/
structure TimeWindow where
  start : Nat
  end_ : Nat
  deriving DecidableEq, Repr

/-- Default time window: the whole horizon (C++ default constructor). -/
def defaultTimeWindow : TimeWindow := ⟨0, 4294967295⟩

instance : Inhabited TimeWindow := ⟨defaultTimeWindow⟩

/-- Modelled from the spec: time windows are kept in a "sorted list of time
windows" in ascending order; the comparison used for sorting
(time_window.cpp is not under src/) is the lexicographic order on
(start, end). -/
def twLE (a b : TimeWindow) : Prop :=
  a.start < b.start ∨ (a.start = b.start ∧ a.end_ ≤ b.end_)

instance : DecidableRel twLE := fun a b =>
  inferInstanceAs (Decidable (a.start < b.start ∨ (a.start = b.start ∧ a.end_ ≤ b.end_)))

instance : IsTotal TimeWindow twLE := ⟨by
  intro a b
  unfold twLE
  omega⟩

instance : IsTrans TimeWindow twLE := ⟨by
  intro a b c
  unfold twLE
  omega⟩

/-- A location: an index into the cost matrix and/or geographic coordinates
(structures/vroom/location.h; coordinates are irrelevant to the verified
properties and modelled as integer pairs). -/
structure LocationM where
  idx : Option Nat
  coords : Option (Int × Int)
  deriving DecidableEq, Repr

instance : Inhabited LocationM := ⟨⟨none, none⟩⟩

/-- `Location::index()`: the matrix index of the location (the C++ accessor
asserts that the index has been set; `0` is the junk value for the unset
case). -/
def LocationM.index (l : LocationM) : Nat := l.idx.getD 0

/-- A job (structures/vroom/job.h): stable id, location, service duration,
capacity delta, skill set and list of time windows. -/
structure Job where
  id : Nat
  location : LocationM
  service : Nat
  amount : List Int
  skills : List Nat
  tws : List TimeWindow
  deriving DecidableEq, Repr

instance : Inhabited Job := ⟨⟨0, default, 0, [], [], [defaultTimeWindow]⟩⟩

/-- `Job::index()`: matrix index of the job location. -/
def Job.index (j : Job) : Nat := j.location.index

/-- A vehicle (structures/vroom/vehicle.h). -/
structure Vehicle where
  id : Nat
  start : Option LocationM
  end_ : Option LocationM
  capacity : List Int
  skills : List Nat
  tw : TimeWindow
  deriving DecidableEq, Repr

instance : Inhabited Vehicle := ⟨⟨0, none, none, [], [], defaultTimeWindow⟩⟩

/-- `Vehicle::has_start()`. -/
def Vehicle.has_start (v : Vehicle) : Bool := v.start.isSome

/-- `Vehicle::has_end()`. -/
def Vehicle.has_end (v : Vehicle) : Bool := v.end_.isSome

/-- `v.start.get()` (junk default when absent; only read under `has_start`). -/
def Vehicle.start_location (v : Vehicle) : LocationM := v.start.getD default

/-- `v.end.get()` (junk default when absent; only read under `has_end`). -/
def Vehicle.end_location (v : Vehicle) : LocationM := v.end_.getD default

/-- The square cost matrix (structures/generic/matrix.h): its dimension and an
entry function; `data i j` is only meaningful for `i, j < size`. -/
structure MatrixM where
  size : Nat
  data : Nat → Nat → Nat

/-- The problem instance (structures/vroom/input.h): jobs, vehicles and the
cost matrix. -/
structure Input where
  geometry : Bool
  jobs : List Job
  vehicles : List Vehicle
  matrix : MatrixM

/-- `_input.jobs[r].index()` with the out-of-range junk default of `getD`. -/
def jobIdx (inp : Input) (r : Nat) : Nat := (inp.jobs.getD r default).index

/-- `a ⊆ b` on skill sets (sets are modelled as duplicate-free lists;
membership is what matters). -/
def skillsSubset (a b : List Nat) : Bool := a.all fun s => b.contains s

/-- Modelled from the spec: `Input::vehicle_ok_with_job` (input.cpp is not
under src/) is the precomputed vehicle/job compatibility
"skills(j) ⊆ skills(v)". -/
def Input.vehicle_ok_with_job (inp : Input) (v j : Nat) : Bool :=
  skillsSubset (inp.jobs.getD j default).skills (inp.vehicles.getD v default).skills

/-- The per-vehicle caches of utils::SolutionState that CrossExchange reads:
`fwd_amounts[v]` (forward cumulative amounts along the route of vehicle `v`)
and `edge_costs_around_edge[v][k]`. -/
structure SolutionState where
  fwd_amounts : Nat → List (List Int)
  edge_costs_around_edge : Nat → Nat → Int

/-- Amount addition, componentwise (modelled from the spec: `Amount` is a
fixed-length vector of integers; amount.h is not under src/). -/
def amountAdd : List Int → List Int → List Int
  | [], _ => []
  | _, [] => []
  | x :: xs, y :: ys => (x + y) :: amountAdd xs ys

/-- Amount subtraction, componentwise. -/
def amountSub : List Int → List Int → List Int
  | [], _ => []
  | _, [] => []
  | x :: xs, y :: ys => (x - y) :: amountSub xs ys

/-- Amount comparison `lhs <= rhs`, componentwise over the common length
(the C++ operator asserts equal lengths). -/
def amountLe : List Int → List Int → Bool
  | [], _ => true
  | _, [] => true
  | x :: xs, y :: ys => decide (x ≤ y) && amountLe xs ys

/-- The CrossExchange operator state: the construction parameters and the
fields written by `compute_gain` (cross_exchange.h; the base class Operator
initialises `stored_gain` to 0 and `gain_computed` to false, the constructor
initialises both reversal flags to false; the four per-orientation gains are
uninitialised in C++ until `compute_gain` runs and are modelled as 0). -/
structure CrossExchange where
  s_vehicle : Nat
  s_rank : Nat
  t_vehicle : Nat
  t_rank : Nat
  reverse_s_edge : Bool
  reverse_t_edge : Bool
  normal_s_gain : Int
  reversed_s_gain : Int
  normal_t_gain : Int
  reversed_t_gain : Int
  stored_gain : Int
  gain_computed : Bool
  deriving DecidableEq, Repr

/-- The CrossExchange constructor: stores the move parameters and sets both
reversal flags to false. Its preconditions (`assert`s) are
`s_vehicle ≠ t_vehicle`, both routes of size at least 2,
`s_rank < s_route.size() - 1` and `t_rank < t_route.size() - 1`. -/
def mkCrossExchange (s_vehicle s_rank t_vehicle t_rank : Nat) : CrossExchange :=
  ⟨s_vehicle, s_rank, t_vehicle, t_rank, false, false, 0, 0, 0, 0, 0, false⟩

/-- The costs `previous_cost` and `reverse_previous_cost` added before the
candidate edge `(e1, e2)` replacing the edge at `rank` of `route`: from the
predecessor position (the job at `rank - 1`, or the vehicle start at rank 0,
or nothing) to `e1` resp. `e2` (cross_exchange.cpp, the two
`if (s_rank == 0) ... else ...` resp. `if (t_rank == 0) ... else ...`
blocks). -/
def prev_costs (inp : Input) (v : Vehicle) (route : List Nat) (rank : Nat)
    (e1 e2 : Nat) : Int × Int :=
  if rank = 0 then
    if v.has_start then
      ((inp.matrix.data v.start_location.index e1 : Int),
       (inp.matrix.data v.start_location.index e2 : Int))
    else (0, 0)
  else
    ((inp.matrix.data (jobIdx inp (route.getD (rank - 1) 0)) e1 : Int),
     (inp.matrix.data (jobIdx inp (route.getD (rank - 1) 0)) e2 : Int))

/-- The costs `next_cost` and `reverse_next_cost` added after the candidate
edge: from `e1` resp. `e2` to the successor position (the job at `rank + 2`,
or the vehicle end when the edge is the last one, or nothing). -/
def next_costs (inp : Input) (v : Vehicle) (route : List Nat) (rank : Nat)
    (e1 e2 : Nat) : Int × Int :=
  if rank = route.length - 2 then
    if v.has_end then
      ((inp.matrix.data e1 v.end_location.index : Int),
       (inp.matrix.data e2 v.end_location.index : Int))
    else (0, 0)
  else
    ((inp.matrix.data e1 (jobIdx inp (route.getD (rank + 2) 0)) : Int),
     (inp.matrix.data e2 (jobIdx inp (route.getD (rank + 2) 0)) : Int))

/-- `CrossExchange::compute_gain` (cross_exchange.cpp lines 34-138): evaluates
replacing the source edge with the target edge in both orientations and vice
versa, records the four gains, the two reversal hints and
`stored_gain = max(normal_s_gain, reversed_s_gain)
             + max(normal_t_gain, reversed_t_gain)`. -/
def compute_gain (inp : Input) (ss : SolutionState) (s_route t_route : List Nat)
    (op : CrossExchange) : CrossExchange :=
  let v_source := inp.vehicles.getD op.s_vehicle default
  let v_target := inp.vehicles.getD op.t_vehicle default
  let s_index := jobIdx inp (s_route.getD op.s_rank 0)
  let s_after_index := jobIdx inp (s_route.getD (op.s_rank + 1) 0)
  let t_index := jobIdx inp (t_route.getD op.t_rank 0)
  let t_after_index := jobIdx inp (t_route.getD (op.t_rank + 1) 0)
  let sp := prev_costs inp v_source s_route op.s_rank t_index t_after_index
  let sn := next_costs inp v_source s_route op.s_rank t_after_index t_index
  let normal_s_gain :=
    ss.edge_costs_around_edge op.s_vehicle op.s_rank - sp.1 - sn.1
  let reversed_s_gain :=
    ss.edge_costs_around_edge op.s_vehicle op.s_rank
      + ((inp.matrix.data t_index t_after_index : Int)
         - (inp.matrix.data t_after_index t_index : Int))
      - sp.2 - sn.2
  let reverse_t_edge := if normal_s_gain < reversed_s_gain then true else op.reverse_t_edge
  let tp := prev_costs inp v_target t_route op.t_rank s_index s_after_index
  let tn := next_costs inp v_target t_route op.t_rank s_after_index s_index
  let normal_t_gain :=
    ss.edge_costs_around_edge op.t_vehicle op.t_rank - tp.1 - tn.1
  let reversed_t_gain :=
    ss.edge_costs_around_edge op.t_vehicle op.t_rank
      + ((inp.matrix.data s_index s_after_index : Int)
         - (inp.matrix.data s_after_index s_index : Int))
      - tp.2 - tn.2
  let reverse_s_edge := if normal_t_gain < reversed_t_gain then true else op.reverse_s_edge
  { op with
    normal_s_gain := normal_s_gain
    reversed_s_gain := reversed_s_gain
    normal_t_gain := normal_t_gain
    reversed_t_gain := reversed_t_gain
    reverse_s_edge := reverse_s_edge
    reverse_t_edge := reverse_t_edge
    stored_gain := max normal_s_gain reversed_s_gain + max normal_t_gain reversed_t_gain
    gain_computed := true }

/-- `CrossExchange::is_valid` (cross_exchange.cpp lines 140-164): skill
compatibility of the four exchanged jobs with their destination vehicles, and
the capacity check on both vehicles. -/
def is_valid (inp : Input) (ss : SolutionState) (s_route t_route : List Nat)
    (op : CrossExchange) : Bool :=
  let s_current_job_rank := s_route.getD op.s_rank 0
  let t_current_job_rank := t_route.getD op.t_rank 0
  let s_after_job_rank := s_route.getD (op.s_rank + 1) 0
  let t_after_job_rank := t_route.getD (op.t_rank + 1) 0
  let valid := inp.vehicle_ok_with_job op.t_vehicle s_current_job_rank
  let valid := valid && inp.vehicle_ok_with_job op.t_vehicle s_after_job_rank
  let valid := valid && inp.vehicle_ok_with_job op.s_vehicle t_current_job_rank
  let valid := valid && inp.vehicle_ok_with_job op.s_vehicle t_after_job_rank
  let valid := valid &&
    amountLe
      (amountAdd
        (amountAdd
          (amountSub
            (amountSub ((ss.fwd_amounts op.s_vehicle).getLastD [])
              (inp.jobs.getD s_current_job_rank default).amount)
            (inp.jobs.getD s_after_job_rank default).amount)
          (inp.jobs.getD t_current_job_rank default).amount)
        (inp.jobs.getD t_after_job_rank default).amount)
      (inp.vehicles.getD op.s_vehicle default).capacity
  let valid := valid &&
    amountLe
      (amountAdd
        (amountAdd
          (amountSub
            (amountSub ((ss.fwd_amounts op.t_vehicle).getLastD [])
              (inp.jobs.getD t_current_job_rank default).amount)
            (inp.jobs.getD t_after_job_rank default).amount)
          (inp.jobs.getD s_current_job_rank default).amount)
        (inp.jobs.getD s_after_job_rank default).amount)
      (inp.vehicles.getD op.t_vehicle default).capacity
  valid

/-- `CrossExchange::apply` (cross_exchange.cpp lines 166-177): swap the two
edges between the routes, then reverse the edge now in the target route when
`reverse_s_edge` was hinted, and the edge now in the source route when
`reverse_t_edge` was hinted. -/
def applyCE (op : CrossExchange) (s_route t_route : List Nat) :
    List Nat × List Nat :=
  let s0 := s_route.getD op.s_rank 0
  let t0 := t_route.getD op.t_rank 0
  let s_route := s_route.set op.s_rank t0
  let t_route := t_route.set op.t_rank s0
  let s1 := s_route.getD (op.s_rank + 1) 0
  let t1 := t_route.getD (op.t_rank + 1) 0
  let s_route := s_route.set (op.s_rank + 1) t1
  let t_route := t_route.set (op.t_rank + 1) s1
  let t_route :=
    if op.reverse_s_edge then
      let a := t_route.getD op.t_rank 0
      let b := t_route.getD (op.t_rank + 1) 0
      (t_route.set op.t_rank b).set (op.t_rank + 1) a
    else t_route
  let s_route :=
    if op.reverse_t_edge then
      let a := s_route.getD op.s_rank 0
      let b := s_route.getD (op.s_rank + 1) 0
      (s_route.set op.s_rank b).set (op.s_rank + 1) a
    else s_route
  (s_route, t_route)

/-- The mutable state visible to a CrossExchange move: the two routes, the
solution-state caches and the operator object itself. -/
structure LSState where
  s_route : List Nat
  t_route : List Nat
  sol : SolutionState
  op : CrossExchange

/-- `compute_gain` as a transition on the full mutable state: the C++ method
body contains writes only to fields of the operator object, so the embedded
step rebuilds only `op`. -/
def compute_gain_step (inp : Input) (st : LSState) : LSState :=
  { st with op := compute_gain inp st.sol st.s_route st.t_route st.op }

/-! ### Route cost model (for the gain identity) -/

/-- Modelled from the spec: the travel cost of the edges between consecutive
jobs of a route fragment (glossary: the cost of an edge is
`M[index(k)][index(k+1)]`). -/
def edgesCost (inp : Input) : List Nat → Int
  | a :: b :: rest =>
    (inp.matrix.data (jobIdx inp a) (jobIdx inp b) : Int) + edgesCost inp (b :: rest)
  | _ => 0

/-- Modelled from the spec: the total travel cost of a route of a vehicle (the
solution-cost computation of utils/helpers.h is not under src/): the optional
start-to-first-job edge, the consecutive job edges, and the optional
last-job-to-end edge (spec 3: a start prefixes and an end suffixes the route
and both "participate in cost arithmetic"; an absent start or end contributes
nothing, spec 8). -/
def routeCost (inp : Input) (v : Vehicle) : List Nat → Int
  | [] => 0
  | h :: t =>
    (match v.start with
     | some st => (inp.matrix.data st.index (jobIdx inp h) : Int)
     | none => 0)
    + edgesCost inp (h :: t)
    + (match v.end_ with
       | some en => (inp.matrix.data (jobIdx inp ((h :: t).getLastD 0)) en.index : Int)
       | none => 0)

/-- The `M[prev(k)][p]` part of the cache definition (spec 4.2): the cost of
the edge entering the position that follows the fragment `A`, towards matrix
index `xIdx`; `prev` is the last job of `A`, the vehicle start when `A` is
empty, and the term is 0 when neither exists. -/
def prevPartCost (inp : Input) (v : Vehicle) : List Nat → Nat → Int
  | [], xIdx =>
    match v.start with
    | some st => (inp.matrix.data st.index xIdx : Int)
    | none => 0
  | a :: A, xIdx => (inp.matrix.data (jobIdx inp ((a :: A).getLastD 0)) xIdx : Int)

/-- The `M[p][next(k+1)]` part of the cache definition (spec 4.2): the cost of
the edge leaving matrix index `yIdx` towards the fragment `B` that follows,
or towards the vehicle end when `B` is empty, or 0. -/
def nextPartCost (inp : Input) (v : Vehicle) (yIdx : Nat) : List Nat → Int
  | [] =>
    match v.end_ with
    | some en => (inp.matrix.data yIdx en.index : Int)
    | none => 0
  | b :: _ => (inp.matrix.data yIdx (jobIdx inp b) : Int)

/-- Cost of the edge joining a fragment `A` to a following matrix index (0 for
an empty fragment). -/
def joinC (inp : Input) : List Nat → Nat → Int
  | [], _ => 0
  | a :: A, xIdx => (inp.matrix.data (jobIdx inp ((a :: A).getLastD 0)) xIdx : Int)

/-- Cost of the edge from a matrix index into the head of a fragment (0 for an
empty fragment). -/
def headNextCost (inp : Input) (yIdx : Nat) : List Nat → Int
  | [] => 0
  | b :: _ => (inp.matrix.data yIdx (jobIdx inp b) : Int)

lemma getLastD_irrel (a : Nat) (l : List Nat) (d d' : Nat) :
    (a :: l).getLastD d = (a :: l).getLastD d' := by
  cases l <;> simp only [List.getLastD_cons]

lemma getLastD_append_cons (A : List Nat) (x : Nat) (R : List Nat) (d : Nat) :
    (A ++ x :: R).getLastD d = (x :: R).getLastD d := by
  induction A generalizing d with
  | nil => rfl
  | cons a A ih =>
    rw [List.cons_append, List.getLastD_cons, ih]
    exact getLastD_irrel x R a d

lemma edgesCost_nil (inp : Input) : edgesCost inp [] = 0 := rfl

lemma edgesCost_singleton (inp : Input) (y : Nat) : edgesCost inp [y] = 0 := rfl

lemma edgesCost_cons_cons (inp : Input) (x y : Nat) (B : List Nat) :
    edgesCost inp (x :: y :: B)
      = (inp.matrix.data (jobIdx inp x) (jobIdx inp y) : Int) + edgesCost inp (y :: B) := rfl

lemma edgesCost_cons (inp : Input) (y : Nat) (B : List Nat) :
    edgesCost inp (y :: B) = headNextCost inp (jobIdx inp y) B + edgesCost inp B := by
  cases B <;> simp [edgesCost, headNextCost]

lemma edgesCost_append (inp : Input) (A : List Nat) (x : Nat) (R : List Nat) :
    edgesCost inp (A ++ x :: R)
      = edgesCost inp A + joinC inp A (jobIdx inp x) + edgesCost inp (x :: R) := by
  induction A with
  | nil => simp [edgesCost, joinC]
  | cons a A ih =>
    cases A with
    | nil => simp [edgesCost, joinC]
    | cons a2 A2 =>
      have e1 : ((a :: a2 :: A2) ++ x :: R) = a :: a2 :: (A2 ++ x :: R) := by simp
      have e2 : ((a2 :: A2) ++ x :: R) = a2 :: (A2 ++ x :: R) := by simp
      rw [e2] at ih
      rw [e1, edgesCost_cons_cons, ih, edgesCost_cons_cons]
      simp only [joinC, List.getLastD_cons]
      ring

lemma edgesCost_cons_append (inp : Input) (a : Nat) (A : List Nat) (x : Nat) (R : List Nat) :
    edgesCost inp (a :: (A ++ x :: R))
      = edgesCost inp (a :: A) + joinC inp (a :: A) (jobIdx inp x) + edgesCost inp (x :: R) := by
  rw [← List.cons_append, edgesCost_append]


/-- Everything in the cost of a route `A ++ [x, y] ++ B` that does not depend
on the middle edge `(x, y)`. -/
def outerCost (inp : Input) (v : Vehicle) (A B : List Nat) : Int :=
  (match v.start, A with
   | some st, a :: _ => (inp.matrix.data st.index (jobIdx inp a) : Int)
   | _, _ => 0)
  + edgesCost inp A + edgesCost inp B
  + (match B, v.end_ with
     | b :: B2, some en => (inp.matrix.data (jobIdx inp ((b :: B2).getLastD 0)) en.index : Int)
     | _, _ => 0)

lemma routeCost_decomp (inp : Input) (v : Vehicle) (A B : List Nat) (x y : Nat) :
    routeCost inp v (A ++ x :: y :: B)
      = outerCost inp v A B + prevPartCost inp v A (jobIdx inp x)
        + (inp.matrix.data (jobIdx inp x) (jobIdx inp y) : Int)
        + nextPartCost inp v (jobIdx inp y) B := by
  obtain ⟨vid, vs, ve, vcap, vsk, vtw⟩ := v
  rcases A with _ | ⟨a, A⟩ <;> rcases B with _ | ⟨b, B⟩ <;> cases vs <;> cases ve <;>
    simp only [List.nil_append, List.cons_append, routeCost, outerCost, prevPartCost,
      nextPartCost, edgesCost_cons_append, edgesCost_cons_cons, edgesCost_singleton,
      edgesCost_nil, joinC, List.getLastD_cons, List.getLastD_nil, getLastD_append_cons] <;>
    ring

/-! ### Index and update lemmas on decomposed routes -/

lemma getD_append_length (A : List Nat) (x : Nat) (R : List Nat) (d : Nat) :
    (A ++ x :: R).getD A.length d = x := by
  rw [List.getD_append_right A (x :: R) d A.length (le_refl _)]
  simp

lemma getD_append_length_add_one (A : List Nat) (x y : Nat) (R : List Nat) (d : Nat) :
    (A ++ x :: y :: R).getD (A.length + 1) d = y := by
  have h : A ++ x :: y :: R = (A ++ [x]) ++ y :: R := by simp
  have h2 : A.length + 1 = (A ++ [x]).length := by simp
  rw [h, h2, getD_append_length]

lemma getD_append_length_add_two (A : List Nat) (x y b : Nat) (R : List Nat) (d : Nat) :
    (A ++ x :: y :: b :: R).getD (A.length + 2) d = b := by
  have h : A ++ x :: y :: b :: R = (A ++ [x, y]) ++ b :: R := by simp
  have h2 : A.length + 2 = (A ++ [x, y]).length := by simp
  rw [h, h2, getD_append_length]

lemma getD_append_pred (A : List Nat) (R : List Nat) (h : A ≠ []) :
    (A ++ R).getD (A.length - 1) 0 = A.getLastD 0 := by
  induction A with
  | nil => exact absurd rfl h
  | cons a A ih =>
    cases A with
    | nil => simp
    | cons a2 A2 =>
      have ih2 := ih (by simp)
      simp only [List.cons_append, List.length_cons, Nat.add_sub_cancel] at ih2 ⊢
      rw [List.getD_cons_succ, ih2]
      simp only [List.getLastD_cons]

lemma set_append_length (A : List Nat) (x : Nat) (R : List Nat) (u : Nat) :
    (A ++ x :: R).set A.length u = A ++ u :: R := by
  induction A with
  | nil => simp
  | cons a A ih => simp only [List.cons_append, List.length_cons, List.set_cons_succ, ih]

lemma set_append_length_add_one (A : List Nat) (x y : Nat) (R : List Nat) (u : Nat) :
    (A ++ x :: y :: R).set (A.length + 1) u = A ++ x :: u :: R := by
  have h : A ++ x :: y :: R = (A ++ [x]) ++ y :: R := by simp
  have h2 : A.length + 1 = (A ++ [x]).length := by simp
  rw [h, h2, set_append_length]
  simp

/-! ### Decomposed forms of the operator computations -/

lemma prev_costs_decomp (inp : Input) (v : Vehicle) (A : List Nat) (x y : Nat)
    (B : List Nat) (e1 e2 : Nat) :
    prev_costs inp v (A ++ x :: y :: B) A.length e1 e2
      = (prevPartCost inp v A e1, prevPartCost inp v A e2) := by
  cases A with
  | nil =>
    cases hv : v.start <;>
      simp [prev_costs, prevPartCost, Vehicle.has_start, Vehicle.start_location, hv]
  | cons a A2 =>
    have hne : (a :: A2 : List Nat) ≠ [] := by simp
    rw [prev_costs, if_neg (by simp)]
    rw [show ((a :: A2) ++ x :: y :: B : List Nat) = (a :: A2) ++ (x :: y :: B) from rfl]
    rw [show ((a :: A2 : List Nat).length - 1) = ((a :: A2 : List Nat).length - 1) from rfl,
      getD_append_pred (a :: A2) (x :: y :: B) hne]
    rfl

lemma next_costs_decomp (inp : Input) (v : Vehicle) (A : List Nat) (x y : Nat)
    (B : List Nat) (e1 e2 : Nat) :
    next_costs inp v (A ++ x :: y :: B) A.length e1 e2
      = (nextPartCost inp v e1 B, nextPartCost inp v e2 B) := by
  cases B with
  | nil =>
    have hc : A.length = (A ++ x :: y :: ([] : List Nat)).length - 2 := by
      simp [List.length_append]
    rw [next_costs, if_pos hc]
    cases hv : v.end_ <;>
      simp [Vehicle.has_end, Vehicle.end_location, hv, nextPartCost]
  | cons b B2 =>
    have hc : ¬ (A.length = (A ++ x :: y :: b :: B2).length - 2) := by
      simp only [List.length_append, List.length_cons]
      omega
    rw [next_costs, if_neg hc, getD_append_length_add_two]
    rfl

lemma compute_gain_s_vehicle (inp : Input) (ss : SolutionState) (s t : List Nat)
    (op : CrossExchange) : (compute_gain inp ss s t op).s_vehicle = op.s_vehicle := by
  simp [compute_gain]

lemma compute_gain_s_rank (inp : Input) (ss : SolutionState) (s t : List Nat)
    (op : CrossExchange) : (compute_gain inp ss s t op).s_rank = op.s_rank := by
  simp [compute_gain]

lemma compute_gain_t_vehicle (inp : Input) (ss : SolutionState) (s t : List Nat)
    (op : CrossExchange) : (compute_gain inp ss s t op).t_vehicle = op.t_vehicle := by
  simp [compute_gain]

lemma compute_gain_t_rank (inp : Input) (ss : SolutionState) (s t : List Nat)
    (op : CrossExchange) : (compute_gain inp ss s t op).t_rank = op.t_rank := by
  simp [compute_gain]

lemma compute_gain_stored (inp : Input) (ss : SolutionState) (s t : List Nat)
    (op : CrossExchange) :
    (compute_gain inp ss s t op).stored_gain
      = max (compute_gain inp ss s t op).normal_s_gain
          (compute_gain inp ss s t op).reversed_s_gain
        + max (compute_gain inp ss s t op).normal_t_gain
            (compute_gain inp ss s t op).reversed_t_gain := by
  simp [compute_gain]

lemma compute_gain_reverse_t_edge (inp : Input) (ss : SolutionState) (s t : List Nat)
    (op : CrossExchange) (hrt : op.reverse_t_edge = false) :
    ((compute_gain inp ss s t op).reverse_t_edge = true
      ↔ (compute_gain inp ss s t op).normal_s_gain
          < (compute_gain inp ss s t op).reversed_s_gain) := by
  simp only [compute_gain]
  split
  · next h => simpa using h
  · next h =>
      simp only [hrt, Bool.false_eq_true, false_iff]
      exact h

lemma compute_gain_reverse_s_edge (inp : Input) (ss : SolutionState) (s t : List Nat)
    (op : CrossExchange) (hrs : op.reverse_s_edge = false) :
    ((compute_gain inp ss s t op).reverse_s_edge = true
      ↔ (compute_gain inp ss s t op).normal_t_gain
          < (compute_gain inp ss s t op).reversed_t_gain) := by
  simp only [compute_gain]
  split
  · next h => simpa using h
  · next h =>
      simp only [hrs, Bool.false_eq_true, false_iff]
      exact h

lemma compute_gain_normal_s (inp : Input) (ss : SolutionState) (s t : List Nat)
    (op : CrossExchange) (A B C D : List Nat) (x y z w : Nat)
    (hs : s = A ++ x :: y :: B) (hA : A.length = op.s_rank)
    (ht : t = C ++ z :: w :: D) (hC : C.length = op.t_rank) :
    (compute_gain inp ss s t op).normal_s_gain
      = ss.edge_costs_around_edge op.s_vehicle op.s_rank
        - prevPartCost inp (inp.vehicles.getD op.s_vehicle default) A (jobIdx inp z)
        - nextPartCost inp (inp.vehicles.getD op.s_vehicle default) (jobIdx inp w) B := by
  subst hs; subst ht
  simp only [compute_gain]
  rw [← hA, ← hC, getD_append_length, getD_append_length_add_one,
    prev_costs_decomp, next_costs_decomp]

lemma compute_gain_reversed_s (inp : Input) (ss : SolutionState) (s t : List Nat)
    (op : CrossExchange) (A B C D : List Nat) (x y z w : Nat)
    (hs : s = A ++ x :: y :: B) (hA : A.length = op.s_rank)
    (ht : t = C ++ z :: w :: D) (hC : C.length = op.t_rank) :
    (compute_gain inp ss s t op).reversed_s_gain
      = ss.edge_costs_around_edge op.s_vehicle op.s_rank
        + ((inp.matrix.data (jobIdx inp z) (jobIdx inp w) : Int)
           - (inp.matrix.data (jobIdx inp w) (jobIdx inp z) : Int))
        - prevPartCost inp (inp.vehicles.getD op.s_vehicle default) A (jobIdx inp w)
        - nextPartCost inp (inp.vehicles.getD op.s_vehicle default) (jobIdx inp z) B := by
  subst hs; subst ht
  simp only [compute_gain]
  rw [← hA, ← hC, getD_append_length, getD_append_length_add_one,
    prev_costs_decomp, next_costs_decomp]

lemma compute_gain_normal_t (inp : Input) (ss : SolutionState) (s t : List Nat)
    (op : CrossExchange) (A B C D : List Nat) (x y z w : Nat)
    (hs : s = A ++ x :: y :: B) (hA : A.length = op.s_rank)
    (ht : t = C ++ z :: w :: D) (hC : C.length = op.t_rank) :
    (compute_gain inp ss s t op).normal_t_gain
      = ss.edge_costs_around_edge op.t_vehicle op.t_rank
        - prevPartCost inp (inp.vehicles.getD op.t_vehicle default) C (jobIdx inp x)
        - nextPartCost inp (inp.vehicles.getD op.t_vehicle default) (jobIdx inp y) D := by
  subst hs; subst ht
  simp only [compute_gain]
  rw [← hA, ← hC, getD_append_length, getD_append_length_add_one,
    prev_costs_decomp, next_costs_decomp]

lemma compute_gain_reversed_t (inp : Input) (ss : SolutionState) (s t : List Nat)
    (op : CrossExchange) (A B C D : List Nat) (x y z w : Nat)
    (hs : s = A ++ x :: y :: B) (hA : A.length = op.s_rank)
    (ht : t = C ++ z :: w :: D) (hC : C.length = op.t_rank) :
    (compute_gain inp ss s t op).reversed_t_gain
      = ss.edge_costs_around_edge op.t_vehicle op.t_rank
        + ((inp.matrix.data (jobIdx inp x) (jobIdx inp y) : Int)
           - (inp.matrix.data (jobIdx inp y) (jobIdx inp x) : Int))
        - prevPartCost inp (inp.vehicles.getD op.t_vehicle default) C (jobIdx inp y)
        - nextPartCost inp (inp.vehicles.getD op.t_vehicle default) (jobIdx inp x) D := by
  subst hs; subst ht
  simp only [compute_gain]
  rw [← hA, ← hC, getD_append_length, getD_append_length_add_one,
    prev_costs_decomp, next_costs_decomp]

lemma applyCE_decomp (op : CrossExchange) (A B C D : List Nat) (x y z w : Nat)
    (s t : List Nat)
    (hs : s = A ++ x :: y :: B) (hA : A.length = op.s_rank)
    (ht : t = C ++ z :: w :: D) (hC : C.length = op.t_rank) :
    applyCE op s t
      = (A ++ (if op.reverse_t_edge then w :: z :: B else z :: w :: B),
         C ++ (if op.reverse_s_edge then y :: x :: D else x :: y :: D)) := by
  subst hs; subst ht
  cases h1 : op.reverse_s_edge <;> cases h2 : op.reverse_t_edge <;>
    simp only [applyCE, ← hA, ← hC, h1, h2, Bool.false_eq_true, if_true, if_false,
      getD_append_length, getD_append_length_add_one, set_append_length,
      set_append_length_add_one, ite_true, ite_false]

/-! ### Claim theorems about CrossExchange -/

/-- C1: for every feasible state in which the solution-state cache
`edge_costs_around_edge[v][k]` holds its defined value
`M[prev(k)][p_k] + M[p_{k+1}][next(k+1)]` for the two exchanged edges, the
`stored_gain` computed by `CrossExchange::compute_gain` equals the total route
cost before `apply()` minus the total route cost after `apply()`, summed over
the two affected routes (with the chosen edge orientations). -/
theorem claim_C1_cross_exchange_gain (inp : Input) (ss : SolutionState)
    (s t : List Nat) (op : CrossExchange) (A B C D : List Nat) (x y z w : Nat)
    (hs : s = A ++ x :: y :: B) (hA : A.length = op.s_rank)
    (ht : t = C ++ z :: w :: D) (hC : C.length = op.t_rank)
    (hrs : op.reverse_s_edge = false) (hrt : op.reverse_t_edge = false)
    (hcs : ss.edge_costs_around_edge op.s_vehicle op.s_rank
      = prevPartCost inp (inp.vehicles.getD op.s_vehicle default) A (jobIdx inp x)
        + nextPartCost inp (inp.vehicles.getD op.s_vehicle default) (jobIdx inp y) B)
    (hct : ss.edge_costs_around_edge op.t_vehicle op.t_rank
      = prevPartCost inp (inp.vehicles.getD op.t_vehicle default) C (jobIdx inp z)
        + nextPartCost inp (inp.vehicles.getD op.t_vehicle default) (jobIdx inp w) D) :
    (compute_gain inp ss s t op).stored_gain
      = (routeCost inp (inp.vehicles.getD op.s_vehicle default) s
          + routeCost inp (inp.vehicles.getD op.t_vehicle default) t)
        - (routeCost inp (inp.vehicles.getD op.s_vehicle default)
              (applyCE (compute_gain inp ss s t op) s t).1
            + routeCost inp (inp.vehicles.getD op.t_vehicle default)
              (applyCE (compute_gain inp ss s t op) s t).2) := by
  subst hs; subst ht
  have hsr := compute_gain_s_rank inp ss (A ++ x :: y :: B) (C ++ z :: w :: D) op
  have htr := compute_gain_t_rank inp ss (A ++ x :: y :: B) (C ++ z :: w :: D) op
  have hns := compute_gain_normal_s inp ss _ _ op A B C D x y z w rfl hA rfl hC
  have hre := compute_gain_reversed_s inp ss _ _ op A B C D x y z w rfl hA rfl hC
  have hnt := compute_gain_normal_t inp ss _ _ op A B C D x y z w rfl hA rfl hC
  have hrf := compute_gain_reversed_t inp ss _ _ op A B C D x y z w rfl hA rfl hC
  have hst := compute_gain_stored inp ss (A ++ x :: y :: B) (C ++ z :: w :: D) op
  have hfs := compute_gain_reverse_s_edge inp ss (A ++ x :: y :: B) (C ++ z :: w :: D) op hrs
  have hft := compute_gain_reverse_t_edge inp ss (A ++ x :: y :: B) (C ++ z :: w :: D) op hrt
  have happ := applyCE_decomp (compute_gain inp ss (A ++ x :: y :: B) (C ++ z :: w :: D) op)
    A B C D x y z w _ _ rfl (hA.trans hsr.symm) rfl (hC.trans htr.symm)
  rw [happ, hst]
  cases h1 : (compute_gain inp ss (A ++ x :: y :: B) (C ++ z :: w :: D) op).reverse_t_edge with
  | false =>
    have hn1 : ¬ ((compute_gain inp ss (A ++ x :: y :: B) (C ++ z :: w :: D) op).normal_s_gain
        < (compute_gain inp ss (A ++ x :: y :: B) (C ++ z :: w :: D) op).reversed_s_gain) :=
      fun hh => absurd (hft.mpr hh) (by simp [h1])
    rw [max_eq_left (not_lt.mp hn1)]
    cases h2 : (compute_gain inp ss (A ++ x :: y :: B) (C ++ z :: w :: D) op).reverse_s_edge with
    | false =>
      have hn2 : ¬ ((compute_gain inp ss (A ++ x :: y :: B) (C ++ z :: w :: D) op).normal_t_gain
          < (compute_gain inp ss (A ++ x :: y :: B) (C ++ z :: w :: D) op).reversed_t_gain) :=
        fun hh => absurd (hfs.mpr hh) (by simp [h2])
      rw [max_eq_left (not_lt.mp hn2)]
      simp only [Bool.false_eq_true, if_false, ite_false, routeCost_decomp]
      rw [hns, hnt, hcs, hct]
      ring
    | true =>
      have hl2 := hfs.mp h2
      rw [max_eq_right (le_of_lt hl2)]
      simp only [Bool.false_eq_true, if_false, ite_false, if_true, ite_true, routeCost_decomp]
      rw [hns, hrf, hcs, hct]
      ring
  | true =>
    have hl1 := hft.mp h1
    rw [max_eq_right (le_of_lt hl1)]
    cases h2 : (compute_gain inp ss (A ++ x :: y :: B) (C ++ z :: w :: D) op).reverse_s_edge with
    | false =>
      have hn2 : ¬ ((compute_gain inp ss (A ++ x :: y :: B) (C ++ z :: w :: D) op).normal_t_gain
          < (compute_gain inp ss (A ++ x :: y :: B) (C ++ z :: w :: D) op).reversed_t_gain) :=
        fun hh => absurd (hfs.mpr hh) (by simp [h2])
      rw [max_eq_left (not_lt.mp hn2)]
      simp only [Bool.false_eq_true, if_false, ite_false, if_true, ite_true, routeCost_decomp]
      rw [hre, hnt, hcs, hct]
      ring
    | true =>
      have hl2 := hfs.mp h2
      rw [max_eq_right (le_of_lt hl2)]
      simp only [if_true, ite_true, routeCost_decomp]
      rw [hre, hrf, hcs, hct]
      ring

/-- C2: `compute_gain` evaluates both orientations of each exchanged edge
independently (the reversed gains differ by the reverse-edge cost
`M[a][b] - M[b][a]`, which is part of the embedded definition), selects per
side the orientation with the strictly larger gain, and sets
`stored_gain = max(normal_s_gain, reversed_s_gain)
             + max(normal_t_gain, reversed_t_gain)`. -/
theorem claim_C2_orientation_selection (inp : Input) (ss : SolutionState)
    (s t : List Nat) (op : CrossExchange)
    (hrs : op.reverse_s_edge = false) (hrt : op.reverse_t_edge = false) :
    (compute_gain inp ss s t op).stored_gain
        = max (compute_gain inp ss s t op).normal_s_gain
            (compute_gain inp ss s t op).reversed_s_gain
          + max (compute_gain inp ss s t op).normal_t_gain
              (compute_gain inp ss s t op).reversed_t_gain
      ∧ ((compute_gain inp ss s t op).reverse_t_edge = true
          ↔ (compute_gain inp ss s t op).normal_s_gain
              < (compute_gain inp ss s t op).reversed_s_gain)
      ∧ ((compute_gain inp ss s t op).reverse_s_edge = true
          ↔ (compute_gain inp ss s t op).normal_t_gain
              < (compute_gain inp ss s t op).reversed_t_gain) :=
  ⟨compute_gain_stored inp ss s t op,
   compute_gain_reverse_t_edge inp ss s t op hrt,
   compute_gain_reverse_s_edge inp ss s t op hrs⟩

/-- C3: `apply()` places the old target edge at positions
`s_rank, s_rank + 1` of the source route and the old source edge at positions
`t_rank, t_rank + 1` of the target route, each fragment reversed exactly when
the corresponding reversal flag is set, and leaves every other position of
both routes unchanged. -/
theorem claim_C3_apply_places_edges (op : CrossExchange) (A B C D : List Nat)
    (x y z w : Nat) (s t : List Nat)
    (hs : s = A ++ x :: y :: B) (hA : A.length = op.s_rank)
    (ht : t = C ++ z :: w :: D) (hC : C.length = op.t_rank) :
    applyCE op s t
      = (A ++ (if op.reverse_t_edge then w :: z :: B else z :: w :: B),
         C ++ (if op.reverse_s_edge then y :: x :: D else x :: y :: D)) :=
  applyCE_decomp op A B C D x y z w s t hs hA ht hC

/-- C6: `apply()` preserves the multiset union of job ranks over the two
routes (no job duplicated or lost; a job moves from one route to the other)
and leaves both route lengths unchanged. -/
theorem claim_C6_apply_preserves_jobs (op : CrossExchange) (A B C D : List Nat)
    (x y z w : Nat) (s t : List Nat)
    (hs : s = A ++ x :: y :: B) (hA : A.length = op.s_rank)
    (ht : t = C ++ z :: w :: D) (hC : C.length = op.t_rank) :
    (((applyCE op s t).1 : Multiset Nat) + ((applyCE op s t).2 : Multiset Nat)
        = (s : Multiset Nat) + (t : Multiset Nat))
      ∧ (applyCE op s t).1.length = s.length
      ∧ (applyCE op s t).2.length = t.length := by
  subst hs; subst ht
  rw [applyCE_decomp op A B C D x y z w _ _ rfl hA rfl hC]
  cases h1 : op.reverse_t_edge <;> cases h2 : op.reverse_s_edge <;>
    refine ⟨?_, ?_, ?_⟩ <;>
    first
      | (simp [List.length_append]; done)
      | (simp only [Bool.false_eq_true, if_true, if_false, ite_true, ite_false]
         rw [Multiset.coe_add, Multiset.coe_add, Multiset.coe_eq_coe]
         refine List.perm_iff_count.mpr fun a => ?_
         simp only [List.count_append, List.count_cons]
         ring)

/-! ### Amount arithmetic lemmas (for the validity check) -/

lemma amountAdd_length (a b : List Int) : (amountAdd a b).length = min a.length b.length := by
  induction a generalizing b with
  | nil => simp [amountAdd]
  | cons x xs ih =>
    cases b with
    | nil => simp [amountAdd]
    | cons y ys =>
      simp only [amountAdd, List.length_cons, ih]
      omega

lemma amountSub_length (a b : List Int) : (amountSub a b).length = min a.length b.length := by
  induction a generalizing b with
  | nil => simp [amountSub]
  | cons x xs ih =>
    cases b with
    | nil => simp [amountSub]
    | cons y ys =>
      simp only [amountSub, List.length_cons, ih]
      omega

lemma amountAdd_getD (a b : List Int) (h : a.length = b.length) (i : Nat) :
    (amountAdd a b).getD i 0 = a.getD i 0 + b.getD i 0 := by
  induction a generalizing b i with
  | nil =>
    cases b with
    | nil => simp [amountAdd]
    | cons y ys => simp at h
  | cons x xs ih =>
    cases b with
    | nil => simp at h
    | cons y ys =>
      cases i with
      | zero => simp [amountAdd]
      | succ j =>
        simp only [amountAdd, List.getD_cons_succ]
        exact ih ys (by simpa using h) j

lemma amountSub_getD (a b : List Int) (h : a.length = b.length) (i : Nat) :
    (amountSub a b).getD i 0 = a.getD i 0 - b.getD i 0 := by
  induction a generalizing b i with
  | nil =>
    cases b with
    | nil => simp [amountSub]
    | cons y ys => simp at h
  | cons x xs ih =>
    cases b with
    | nil => simp at h
    | cons y ys =>
      cases i with
      | zero => simp [amountSub]
      | succ j =>
        simp only [amountSub, List.getD_cons_succ]
        exact ih ys (by simpa using h) j

lemma amountLe_iff (a b : List Int) (h : a.length = b.length) :
    (amountLe a b = true ↔ ∀ i, i < a.length → a.getD i 0 ≤ b.getD i 0) := by
  induction a generalizing b with
  | nil => simp [amountLe]
  | cons x xs ih =>
    cases b with
    | nil => simp at h
    | cons y ys =>
      simp only [amountLe, Bool.and_eq_true, decide_eq_true_eq]
      rw [ih ys (by simpa using h)]
      constructor
      · rintro ⟨hxy, hrest⟩ i hi
        cases i with
        | zero => simpa using hxy
        | succ j =>
          simp only [List.getD_cons_succ]
          exact hrest j (by simpa using hi)
      · intro hall
        refine ⟨by simpa using hall 0 (by simp), fun j hj => ?_⟩
        have := hall (j + 1) (by simpa using hj)
        simpa using this

/-- C4: `is_valid()` returns true if and only if all four exchanged jobs are
skill-compatible with their destination vehicle and, for each vehicle, the
route load after the exchange (`fwd_amounts.back()` minus the amounts of the
two outgoing jobs plus the amounts of the two incoming jobs) is componentwise
at most that vehicle capacity.  `n` is the common dimension of all the amount
vectors involved (the C++ `Amount` operators assert equal dimensions). -/
theorem claim_C4_is_valid_iff (inp : Input) (ss : SolutionState) (s t : List Nat)
    (op : CrossExchange) (n : Nat)
    (hFs : ((ss.fwd_amounts op.s_vehicle).getLastD []).length = n)
    (hFt : ((ss.fwd_amounts op.t_vehicle).getLastD []).length = n)
    (ha1 : (inp.jobs.getD (s.getD op.s_rank 0) default).amount.length = n)
    (ha2 : (inp.jobs.getD (s.getD (op.s_rank + 1) 0) default).amount.length = n)
    (ha3 : (inp.jobs.getD (t.getD op.t_rank 0) default).amount.length = n)
    (ha4 : (inp.jobs.getD (t.getD (op.t_rank + 1) 0) default).amount.length = n)
    (hcs : (inp.vehicles.getD op.s_vehicle default).capacity.length = n)
    (hct : (inp.vehicles.getD op.t_vehicle default).capacity.length = n) :
    (is_valid inp ss s t op = true ↔
      ((inp.vehicle_ok_with_job op.t_vehicle (s.getD op.s_rank 0) = true
        ∧ inp.vehicle_ok_with_job op.t_vehicle (s.getD (op.s_rank + 1) 0) = true
        ∧ inp.vehicle_ok_with_job op.s_vehicle (t.getD op.t_rank 0) = true
        ∧ inp.vehicle_ok_with_job op.s_vehicle (t.getD (op.t_rank + 1) 0) = true)
       ∧ (∀ i, i < n →
            ((ss.fwd_amounts op.s_vehicle).getLastD []).getD i 0
              - (inp.jobs.getD (s.getD op.s_rank 0) default).amount.getD i 0
              - (inp.jobs.getD (s.getD (op.s_rank + 1) 0) default).amount.getD i 0
              + (inp.jobs.getD (t.getD op.t_rank 0) default).amount.getD i 0
              + (inp.jobs.getD (t.getD (op.t_rank + 1) 0) default).amount.getD i 0
            ≤ (inp.vehicles.getD op.s_vehicle default).capacity.getD i 0)
       ∧ (∀ i, i < n →
            ((ss.fwd_amounts op.t_vehicle).getLastD []).getD i 0
              - (inp.jobs.getD (t.getD op.t_rank 0) default).amount.getD i 0
              - (inp.jobs.getD (t.getD (op.t_rank + 1) 0) default).amount.getD i 0
              + (inp.jobs.getD (s.getD op.s_rank 0) default).amount.getD i 0
              + (inp.jobs.getD (s.getD (op.s_rank + 1) 0) default).amount.getD i 0
            ≤ (inp.vehicles.getD op.t_vehicle default).capacity.getD i 0))) := by
  have lS1 : (amountSub ((ss.fwd_amounts op.s_vehicle).getLastD [])
      (inp.jobs.getD (s.getD op.s_rank 0) default).amount).length = n := by
    rw [amountSub_length, hFs, ha1, min_self]
  have lS2 : (amountSub (amountSub ((ss.fwd_amounts op.s_vehicle).getLastD [])
      (inp.jobs.getD (s.getD op.s_rank 0) default).amount)
      (inp.jobs.getD (s.getD (op.s_rank + 1) 0) default).amount).length = n := by
    rw [amountSub_length, lS1, ha2, min_self]
  have lS3 : (amountAdd (amountSub (amountSub ((ss.fwd_amounts op.s_vehicle).getLastD [])
      (inp.jobs.getD (s.getD op.s_rank 0) default).amount)
      (inp.jobs.getD (s.getD (op.s_rank + 1) 0) default).amount)
      (inp.jobs.getD (t.getD op.t_rank 0) default).amount).length = n := by
    rw [amountAdd_length, lS2, ha3, min_self]
  have lS4 : (amountAdd (amountAdd (amountSub (amountSub
      ((ss.fwd_amounts op.s_vehicle).getLastD [])
      (inp.jobs.getD (s.getD op.s_rank 0) default).amount)
      (inp.jobs.getD (s.getD (op.s_rank + 1) 0) default).amount)
      (inp.jobs.getD (t.getD op.t_rank 0) default).amount)
      (inp.jobs.getD (t.getD (op.t_rank + 1) 0) default).amount).length = n := by
    rw [amountAdd_length, lS3, ha4, min_self]
  have lT1 : (amountSub ((ss.fwd_amounts op.t_vehicle).getLastD [])
      (inp.jobs.getD (t.getD op.t_rank 0) default).amount).length = n := by
    rw [amountSub_length, hFt, ha3, min_self]
  have lT2 : (amountSub (amountSub ((ss.fwd_amounts op.t_vehicle).getLastD [])
      (inp.jobs.getD (t.getD op.t_rank 0) default).amount)
      (inp.jobs.getD (t.getD (op.t_rank + 1) 0) default).amount).length = n := by
    rw [amountSub_length, lT1, ha4, min_self]
  have lT3 : (amountAdd (amountSub (amountSub ((ss.fwd_amounts op.t_vehicle).getLastD [])
      (inp.jobs.getD (t.getD op.t_rank 0) default).amount)
      (inp.jobs.getD (t.getD (op.t_rank + 1) 0) default).amount)
      (inp.jobs.getD (s.getD op.s_rank 0) default).amount).length = n := by
    rw [amountAdd_length, lT2, ha1, min_self]
  have lT4 : (amountAdd (amountAdd (amountSub (amountSub
      ((ss.fwd_amounts op.t_vehicle).getLastD [])
      (inp.jobs.getD (t.getD op.t_rank 0) default).amount)
      (inp.jobs.getD (t.getD (op.t_rank + 1) 0) default).amount)
      (inp.jobs.getD (s.getD op.s_rank 0) default).amount)
      (inp.jobs.getD (s.getD (op.s_rank + 1) 0) default).amount).length = n := by
    rw [amountAdd_length, lT3, ha2, min_self]
  have eS : ∀ i,
      (amountAdd (amountAdd (amountSub (amountSub
        ((ss.fwd_amounts op.s_vehicle).getLastD [])
        (inp.jobs.getD (s.getD op.s_rank 0) default).amount)
        (inp.jobs.getD (s.getD (op.s_rank + 1) 0) default).amount)
        (inp.jobs.getD (t.getD op.t_rank 0) default).amount)
        (inp.jobs.getD (t.getD (op.t_rank + 1) 0) default).amount).getD i 0
      = ((ss.fwd_amounts op.s_vehicle).getLastD []).getD i 0
          - (inp.jobs.getD (s.getD op.s_rank 0) default).amount.getD i 0
          - (inp.jobs.getD (s.getD (op.s_rank + 1) 0) default).amount.getD i 0
          + (inp.jobs.getD (t.getD op.t_rank 0) default).amount.getD i 0
          + (inp.jobs.getD (t.getD (op.t_rank + 1) 0) default).amount.getD i 0 := by
    intro i
    rw [amountAdd_getD _ _ (by rw [lS3, ha4]), amountAdd_getD _ _ (by rw [lS2, ha3]),
      amountSub_getD _ _ (by rw [lS1, ha2]), amountSub_getD _ _ (by rw [hFs, ha1])]
  have eT : ∀ i,
      (amountAdd (amountAdd (amountSub (amountSub
        ((ss.fwd_amounts op.t_vehicle).getLastD [])
        (inp.jobs.getD (t.getD op.t_rank 0) default).amount)
        (inp.jobs.getD (t.getD (op.t_rank + 1) 0) default).amount)
        (inp.jobs.getD (s.getD op.s_rank 0) default).amount)
        (inp.jobs.getD (s.getD (op.s_rank + 1) 0) default).amount).getD i 0
      = ((ss.fwd_amounts op.t_vehicle).getLastD []).getD i 0
          - (inp.jobs.getD (t.getD op.t_rank 0) default).amount.getD i 0
          - (inp.jobs.getD (t.getD (op.t_rank + 1) 0) default).amount.getD i 0
          + (inp.jobs.getD (s.getD op.s_rank 0) default).amount.getD i 0
          + (inp.jobs.getD (s.getD (op.s_rank + 1) 0) default).amount.getD i 0 := by
    intro i
    rw [amountAdd_getD _ _ (by rw [lT3, ha2]), amountAdd_getD _ _ (by rw [lT2, ha1]),
      amountSub_getD _ _ (by rw [lT1, ha4]), amountSub_getD _ _ (by rw [hFt, ha3])]
  simp only [is_valid, Bool.and_eq_true]
  rw [amountLe_iff _ _ (by rw [lS4, hcs]), amountLe_iff _ _ (by rw [lT4, hct]), lS4, lT4]
  constructor
  · rintro ⟨⟨⟨⟨⟨h1, h2⟩, h3⟩, h4⟩, h5⟩, h6⟩
    refine ⟨⟨h1, h2, h3, h4⟩, fun i hi => ?_, fun i hi => ?_⟩
    · have := h5 i hi
      rwa [eS i] at this
    · have := h6 i hi
      rwa [eT i] at this
  · rintro ⟨⟨h1, h2, h3, h4⟩, h5, h6⟩
    refine ⟨⟨⟨⟨⟨h1, h2⟩, h3⟩, h4⟩, fun i hi => ?_⟩, fun i hi => ?_⟩
    · rw [eS i]
      exact h5 i hi
    · rw [eT i]
      exact h6 i hi

/-- C9: `compute_gain` mutates neither route sequence, the solution state,
nor the matrix: on the full mutable state it only replaces the operator
object, and within the operator it leaves the construction parameters
unchanged (it writes only the gains, the reversal flags and
`gain_computed`). -/
theorem claim_C9_compute_gain_frame (inp : Input) (st : LSState) :
    (compute_gain_step inp st).s_route = st.s_route
    ∧ (compute_gain_step inp st).t_route = st.t_route
    ∧ (compute_gain_step inp st).sol = st.sol
    ∧ (compute_gain_step inp st).op.s_vehicle = st.op.s_vehicle
    ∧ (compute_gain_step inp st).op.s_rank = st.op.s_rank
    ∧ (compute_gain_step inp st).op.t_vehicle = st.op.t_vehicle
    ∧ (compute_gain_step inp st).op.t_rank = st.op.t_rank :=
  ⟨rfl, rfl, rfl,
   compute_gain_s_vehicle inp st.sol st.s_route st.t_route st.op,
   compute_gain_s_rank inp st.sol st.s_route st.t_route st.op,
   compute_gain_t_vehicle inp st.sol st.s_route st.t_route st.op,
   compute_gain_t_rank inp st.sol st.s_route st.t_route st.op⟩

/-! ### C5: reversal under a symmetric matrix -/

/-- C5 (amended): when the matrix is symmetric the reverse-edge cost term
`M[a][b] - M[b][a]` vanishes, so each reversed-orientation gain equals the
cache value minus the reversed connection costs alone; the normal and
reversed gains compare different connection edges and may still differ, so a
reversal may still be chosen. -/
theorem claim_C5_symmetric_reverse_edge_cost (inp : Input) (ss : SolutionState)
    (s t : List Nat) (op : CrossExchange) (A B C D : List Nat) (x y z w : Nat)
    (hsym : ∀ i j, inp.matrix.data i j = inp.matrix.data j i)
    (hs : s = A ++ x :: y :: B) (hA : A.length = op.s_rank)
    (ht : t = C ++ z :: w :: D) (hC : C.length = op.t_rank) :
    ((compute_gain inp ss s t op).reversed_s_gain
        = ss.edge_costs_around_edge op.s_vehicle op.s_rank
          - prevPartCost inp (inp.vehicles.getD op.s_vehicle default) A (jobIdx inp w)
          - nextPartCost inp (inp.vehicles.getD op.s_vehicle default) (jobIdx inp z) B)
    ∧ ((compute_gain inp ss s t op).reversed_t_gain
        = ss.edge_costs_around_edge op.t_vehicle op.t_rank
          - prevPartCost inp (inp.vehicles.getD op.t_vehicle default) C (jobIdx inp y)
          - nextPartCost inp (inp.vehicles.getD op.t_vehicle default) (jobIdx inp x) D) := by
  constructor
  · rw [compute_gain_reversed_s inp ss s t op A B C D x y z w hs hA ht hC,
      hsym (jobIdx inp z) (jobIdx inp w)]
    ring
  · rw [compute_gain_reversed_t inp ss s t op A B C D x y z w hs hA ht hC,
      hsym (jobIdx inp x) (jobIdx inp y)]
    ring

/-- A symmetric-by-construction cost matrix entry function used to test the
reversal selection under a symmetric matrix. -/
def cex5_mdata (i j : Nat) : Nat :=
  if min i j = 0 ∧ max i j = 3 then 10
  else if min i j = 4 ∧ max i j = 5 then 10
  else if min i j = 0 ∧ max i j = 4 then 1
  else if min i j = 3 ∧ max i j = 5 then 1
  else if min i j = max i j then 0
  else 2

/-- A four-job, two-vehicle instance over the symmetric matrix `cex5_mdata`:
vehicle 0 runs from matrix index 0 to matrix index 5, vehicle 1 has no start
and no end; jobs 0..3 sit at matrix indices 1..4. -/
def cex5_input : Input :=
  { geometry := false
    jobs := [⟨1, ⟨some 1, none⟩, 0, [], [], [defaultTimeWindow]⟩,
             ⟨2, ⟨some 2, none⟩, 0, [], [], [defaultTimeWindow]⟩,
             ⟨3, ⟨some 3, none⟩, 0, [], [], [defaultTimeWindow]⟩,
             ⟨4, ⟨some 4, none⟩, 0, [], [], [defaultTimeWindow]⟩]
    vehicles := [⟨0, some ⟨some 0, none⟩, some ⟨some 5, none⟩, [10], [], defaultTimeWindow⟩,
                 ⟨1, none, none, [10], [], defaultTimeWindow⟩]
    matrix := ⟨6, cex5_mdata⟩ }

/-- A solution state whose caches are all zero (the reversal decision does not
read the cache difference, which cancels). -/
def cex5_ss : SolutionState := ⟨fun _ => [[1]], fun _ _ => 0⟩

def cex5_s : List Nat := [0, 1]

def cex5_t : List Nat := [2, 3]

def cex5_op : CrossExchange := mkCrossExchange 0 0 1 0

lemma cex5_symm : ∀ i j, cex5_input.matrix.data i j = cex5_input.matrix.data j i := by
  intro i j
  simp only [cex5_input, cex5_mdata]
  rw [Nat.min_comm j i, Nat.max_comm j i]

/-- C5 (counterexample): on a symmetric matrix, `compute_gain` can still find
the reversed orientation strictly better and set a reversal flag: the
connection costs, not the edge cost itself, decide the orientation. -/
theorem claim_C5_counterexample :
    (∀ i j, cex5_input.matrix.data i j = cex5_input.matrix.data j i)
    ∧ (compute_gain cex5_input cex5_ss cex5_s cex5_t cex5_op).reverse_t_edge = true
    ∧ (compute_gain cex5_input cex5_ss cex5_s cex5_t cex5_op).normal_s_gain
        ≠ (compute_gain cex5_input cex5_ss cex5_s cex5_t cex5_op).reversed_s_gain :=
  ⟨cex5_symm, by decide, by decide⟩

/-- C5 (witness for the amended theorem): the amended statement evaluated on
the concrete symmetric instance. -/
theorem claim_C5_witness :
    ((compute_gain cex5_input cex5_ss cex5_s cex5_t cex5_op).reversed_s_gain
        = cex5_ss.edge_costs_around_edge cex5_op.s_vehicle cex5_op.s_rank
          - prevPartCost cex5_input (cex5_input.vehicles.getD cex5_op.s_vehicle default) []
              (jobIdx cex5_input 3)
          - nextPartCost cex5_input (cex5_input.vehicles.getD cex5_op.s_vehicle default)
              (jobIdx cex5_input 2) [])
    ∧ ((compute_gain cex5_input cex5_ss cex5_s cex5_t cex5_op).reversed_t_gain
        = cex5_ss.edge_costs_around_edge cex5_op.t_vehicle cex5_op.t_rank
          - prevPartCost cex5_input (cex5_input.vehicles.getD cex5_op.t_vehicle default) []
              (jobIdx cex5_input 1)
          - nextPartCost cex5_input (cex5_input.vehicles.getD cex5_op.t_vehicle default)
              (jobIdx cex5_input 0) []) :=
  claim_C5_symmetric_reverse_edge_cost cex5_input cex5_ss cex5_s cex5_t cex5_op
    [] [] [] [] 0 1 2 3 cex5_symm rfl rfl rfl rfl

/-! ### C10: bounds-checked evaluators

Each container access of the three methods is replayed through a checked read
that returns `none` on an out-of-bounds index; the checked evaluator returns
`some` of the unchecked result exactly when every access is in bounds. -/

/-- A bounds-checked matrix read. -/
def mread? (m : MatrixM) (i j : Nat) : Option Nat :=
  if i < m.size ∧ j < m.size then some (m.data i j) else none

/-- Bounds-checked `prev_costs`: same control flow, every route, job and
matrix access checked. -/
def prev_costs_checked (inp : Input) (v : Vehicle) (route : List Nat) (rank : Nat)
    (e1 e2 : Nat) : Option (Int × Int) :=
  if rank = 0 then
    if v.has_start then do
      let c1 ← mread? inp.matrix v.start_location.index e1
      let c2 ← mread? inp.matrix v.start_location.index e2
      some ((c1 : Int), (c2 : Int))
    else some (0, 0)
  else do
    let pr ← route[rank - 1]?
    let pj ← inp.jobs[pr]?
    let c1 ← mread? inp.matrix pj.index e1
    let c2 ← mread? inp.matrix pj.index e2
    some ((c1 : Int), (c2 : Int))

/-- Bounds-checked `next_costs`. -/
def next_costs_checked (inp : Input) (v : Vehicle) (route : List Nat) (rank : Nat)
    (e1 e2 : Nat) : Option (Int × Int) :=
  if rank = route.length - 2 then
    if v.has_end then do
      let c1 ← mread? inp.matrix e1 v.end_location.index
      let c2 ← mread? inp.matrix e2 v.end_location.index
      some ((c1 : Int), (c2 : Int))
    else some (0, 0)
  else do
    let nr ← route[rank + 2]?
    let nj ← inp.jobs[nr]?
    let c1 ← mread? inp.matrix e1 nj.index
    let c2 ← mread? inp.matrix e2 nj.index
    some ((c1 : Int), (c2 : Int))

/-- Bounds-checked `compute_gain`. -/
def compute_gain_checked (inp : Input) (ss : SolutionState)
    (s_route t_route : List Nat) (op : CrossExchange) : Option CrossExchange :=
  match inp.vehicles[op.s_vehicle]?, inp.vehicles[op.t_vehicle]? with
  | some v_source, some v_target =>
    match s_route[op.s_rank]?, s_route[op.s_rank + 1]?,
          t_route[op.t_rank]?, t_route[op.t_rank + 1]? with
    | some sr0, some sr1, some tr0, some tr1 =>
      match inp.jobs[sr0]?, inp.jobs[sr1]?, inp.jobs[tr0]?, inp.jobs[tr1]? with
      | some s_job, some s_after_job, some t_job, some t_after_job =>
        match prev_costs_checked inp v_source s_route op.s_rank t_job.index t_after_job.index,
              next_costs_checked inp v_source s_route op.s_rank t_after_job.index t_job.index,
              mread? inp.matrix t_job.index t_after_job.index,
              mread? inp.matrix t_after_job.index t_job.index,
              prev_costs_checked inp v_target t_route op.t_rank s_job.index s_after_job.index,
              next_costs_checked inp v_target t_route op.t_rank s_after_job.index s_job.index,
              mread? inp.matrix s_job.index s_after_job.index,
              mread? inp.matrix s_after_job.index s_job.index with
        | some sp, some sn, some c1, some c2, some tp, some tn, some d1, some d2 =>
          let normal_s_gain :=
            ss.edge_costs_around_edge op.s_vehicle op.s_rank - sp.1 - sn.1
          let reversed_s_gain :=
            ss.edge_costs_around_edge op.s_vehicle op.s_rank
              + ((c1 : Int) - (c2 : Int)) - sp.2 - sn.2
          let reverse_t_edge :=
            if normal_s_gain < reversed_s_gain then true else op.reverse_t_edge
          let normal_t_gain :=
            ss.edge_costs_around_edge op.t_vehicle op.t_rank - tp.1 - tn.1
          let reversed_t_gain :=
            ss.edge_costs_around_edge op.t_vehicle op.t_rank
              + ((d1 : Int) - (d2 : Int)) - tp.2 - tn.2
          let reverse_s_edge :=
            if normal_t_gain < reversed_t_gain then true else op.reverse_s_edge
          some { op with
            normal_s_gain := normal_s_gain
            reversed_s_gain := reversed_s_gain
            normal_t_gain := normal_t_gain
            reversed_t_gain := reversed_t_gain
            reverse_s_edge := reverse_s_edge
            reverse_t_edge := reverse_t_edge
            stored_gain := max normal_s_gain reversed_s_gain
              + max normal_t_gain reversed_t_gain
            gain_computed := true }
        | _, _, _, _, _, _, _, _ => none
      | _, _, _, _ => none
    | _, _, _, _ => none
  | _, _ => none

/-- Bounds-checked `is_valid`. -/
def is_valid_checked (inp : Input) (ss : SolutionState)
    (s_route t_route : List Nat) (op : CrossExchange) : Option Bool :=
  match s_route[op.s_rank]?, t_route[op.t_rank]?,
        s_route[op.s_rank + 1]?, t_route[op.t_rank + 1]? with
  | some s_current_job_rank, some t_current_job_rank,
      some s_after_job_rank, some t_after_job_rank =>
    match inp.jobs[s_current_job_rank]?, inp.jobs[s_after_job_rank]?,
          inp.jobs[t_current_job_rank]?, inp.jobs[t_after_job_rank]?,
          inp.vehicles[op.s_vehicle]?, inp.vehicles[op.t_vehicle]? with
    | some sj, some saj, some tj, some taj, some sv, some tv =>
      some (inp.vehicle_ok_with_job op.t_vehicle s_current_job_rank
        && inp.vehicle_ok_with_job op.t_vehicle s_after_job_rank
        && inp.vehicle_ok_with_job op.s_vehicle t_current_job_rank
        && inp.vehicle_ok_with_job op.s_vehicle t_after_job_rank
        && amountLe
            (amountAdd (amountAdd (amountSub (amountSub
              ((ss.fwd_amounts op.s_vehicle).getLastD []) sj.amount) saj.amount)
              tj.amount) taj.amount)
            sv.capacity
        && amountLe
            (amountAdd (amountAdd (amountSub (amountSub
              ((ss.fwd_amounts op.t_vehicle).getLastD []) tj.amount) taj.amount)
              sj.amount) saj.amount)
            tv.capacity)
    | _, _, _, _, _, _ => none
  | _, _, _, _ => none

/-- Bounds-checked `apply`. -/
def applyCE_checked (op : CrossExchange) (s_route t_route : List Nat) :
    Option (List Nat × List Nat) :=
  match s_route[op.s_rank]?, t_route[op.t_rank]? with
  | some s0, some t0 =>
    let s1l := s_route.set op.s_rank t0
    let t1l := t_route.set op.t_rank s0
    match s1l[op.s_rank + 1]?, t1l[op.t_rank + 1]? with
    | some s1, some t1 =>
      let s2l := s1l.set (op.s_rank + 1) t1
      let t2l := t1l.set (op.t_rank + 1) s1
      let t3o : Option (List Nat) :=
        if op.reverse_s_edge then
          match t2l[op.t_rank]?, t2l[op.t_rank + 1]? with
          | some a, some b => some ((t2l.set op.t_rank b).set (op.t_rank + 1) a)
          | _, _ => none
        else some t2l
      let s3o : Option (List Nat) :=
        if op.reverse_t_edge then
          match s2l[op.s_rank]?, s2l[op.s_rank + 1]? with
          | some a, some b => some ((s2l.set op.s_rank b).set (op.s_rank + 1) a)
          | _, _ => none
        else some s2l
      match s3o, t3o with
      | some s3, some t3 => some (s3, t3)
      | _, _ => none
    | _, _ => none
  | _, _ => none

/-- Validity of a problem instance: every job location and every vehicle start
or end location refers to a row of the matrix (established by the input
parsing checks). -/
def Input.WF (inp : Input) : Prop :=
  (∀ j ∈ inp.jobs, j.index < inp.matrix.size)
  ∧ (∀ v ∈ inp.vehicles,
      (∀ l ∈ v.start, l.index < inp.matrix.size)
      ∧ (∀ l ∈ v.end_, l.index < inp.matrix.size))

lemma natlist_get?_eq (l : List Nat) (i : Nat) (h : i < l.length) :
    l[i]? = some (l.getD i 0) := by
  rw [List.getElem?_eq_getElem h, List.getD_eq_getElem l 0 h]

lemma jobs_get?_eq (l : List Job) (i : Nat) (h : i < l.length) :
    l[i]? = some (l.getD i default) := by
  rw [List.getElem?_eq_getElem h, List.getD_eq_getElem l default h]

lemma vehicles_get?_eq (l : List Vehicle) (i : Nat) (h : i < l.length) :
    l[i]? = some (l.getD i default) := by
  rw [List.getElem?_eq_getElem h, List.getD_eq_getElem l default h]

lemma mread?_eq (m : MatrixM) (i j : Nat) (hi : i < m.size) (hj : j < m.size) :
    mread? m i j = some (m.data i j) := by
  simp [mread?, hi, hj]

lemma getD_mem (l : List Nat) (i : Nat) (h : i < l.length) : l.getD i 0 ∈ l := by
  rw [List.getD_eq_getElem l 0 h]
  exact List.getElem_mem h

lemma jobs_getD_mem (l : List Job) (i : Nat) (h : i < l.length) : l.getD i default ∈ l := by
  rw [List.getD_eq_getElem l default h]
  exact List.getElem_mem h

lemma vehicles_getD_mem (l : List Vehicle) (i : Nat) (h : i < l.length) :
    l.getD i default ∈ l := by
  rw [List.getD_eq_getElem l default h]
  exact List.getElem_mem h

lemma prev_costs_checked_eq (inp : Input) (v : Vehicle) (route : List Nat)
    (rank : Nat) (e1 e2 : Nat)
    (hstart : ∀ l ∈ v.start, l.index < inp.matrix.size)
    (hroute : ∀ r ∈ route, r < inp.jobs.length)
    (hjobs : ∀ j ∈ inp.jobs, j.index < inp.matrix.size)
    (he1 : e1 < inp.matrix.size) (he2 : e2 < inp.matrix.size)
    (hrank : rank < route.length) :
    prev_costs_checked inp v route rank e1 e2
      = some (prev_costs inp v route rank e1 e2) := by
  by_cases h0 : rank = 0
  · rw [prev_costs_checked, prev_costs, if_pos h0, if_pos h0]
    cases hv : v.start with
    | none => simp [Vehicle.has_start, hv]
    | some st =>
      have hst : st.index < inp.matrix.size := hstart st (by simp [hv])
      simp only [Vehicle.has_start, hv, Option.isSome_some, if_true,
        Vehicle.start_location, Option.getD_some,
        mread?_eq inp.matrix st.index e1 hst he1,
        mread?_eq inp.matrix st.index e2 hst he2,
        Option.bind_eq_bind, Option.some_bind]
  · rw [prev_costs_checked, prev_costs, if_neg h0, if_neg h0]
    have hlt : rank - 1 < route.length := by omega
    have hpr : route.getD (rank - 1) 0 < inp.jobs.length :=
      hroute _ (getD_mem route _ hlt)
    have hidx : (inp.jobs.getD (route.getD (rank - 1) 0) default).index
        < inp.matrix.size := hjobs _ (jobs_getD_mem inp.jobs _ hpr)
    simp only [natlist_get?_eq route (rank - 1) hlt,
      jobs_get?_eq inp.jobs _ hpr,
      mread?_eq inp.matrix _ e1 hidx he1,
      mread?_eq inp.matrix _ e2 hidx he2,
      Option.bind_eq_bind, Option.some_bind, jobIdx]

lemma next_costs_checked_eq (inp : Input) (v : Vehicle) (route : List Nat)
    (rank : Nat) (e1 e2 : Nat)
    (hend : ∀ l ∈ v.end_, l.index < inp.matrix.size)
    (hroute : ∀ r ∈ route, r < inp.jobs.length)
    (hjobs : ∀ j ∈ inp.jobs, j.index < inp.matrix.size)
    (he1 : e1 < inp.matrix.size) (he2 : e2 < inp.matrix.size)
    (hrank : rank < route.length - 1) (hlen : 2 ≤ route.length) :
    next_costs_checked inp v route rank e1 e2
      = some (next_costs inp v route rank e1 e2) := by
  by_cases h0 : rank = route.length - 2
  · rw [next_costs_checked, next_costs, if_pos h0, if_pos h0]
    cases hv : v.end_ with
    | none => simp [Vehicle.has_end, hv]
    | some en =>
      have hen : en.index < inp.matrix.size := hend en (by simp [hv])
      simp only [Vehicle.has_end, hv, Option.isSome_some, if_true,
        Vehicle.end_location, Option.getD_some,
        mread?_eq inp.matrix e1 en.index he1 hen,
        mread?_eq inp.matrix e2 en.index he2 hen,
        Option.bind_eq_bind, Option.some_bind]
  · rw [next_costs_checked, next_costs, if_neg h0, if_neg h0]
    have hlt : rank + 2 < route.length := by omega
    have hnr : route.getD (rank + 2) 0 < inp.jobs.length :=
      hroute _ (getD_mem route _ hlt)
    have hidx : (inp.jobs.getD (route.getD (rank + 2) 0) default).index
        < inp.matrix.size := hjobs _ (jobs_getD_mem inp.jobs _ hnr)
    simp only [natlist_get?_eq route (rank + 2) hlt,
      jobs_get?_eq inp.jobs _ hnr,
      mread?_eq inp.matrix e1 _ he1 hidx,
      mread?_eq inp.matrix e2 _ he2 hidx,
      Option.bind_eq_bind, Option.some_bind, jobIdx]

lemma compute_gain_checked_eq (inp : Input) (ss : SolutionState) (s t : List Nat)
    (op : CrossExchange) (hW : inp.WF)
    (hsv : op.s_vehicle < inp.vehicles.length) (htv : op.t_vehicle < inp.vehicles.length)
    (hs2 : 2 ≤ s.length) (ht2 : 2 ≤ t.length)
    (hsr : op.s_rank < s.length - 1) (htr : op.t_rank < t.length - 1)
    (hsroute : ∀ r ∈ s, r < inp.jobs.length) (htroute : ∀ r ∈ t, r < inp.jobs.length) :
    compute_gain_checked inp ss s t op = some (compute_gain inp ss s t op) := by
  obtain ⟨hjW, hvW⟩ := hW
  have hsr0 : op.s_rank < s.length := by omega
  have hsr1 : op.s_rank + 1 < s.length := by omega
  have htr0 : op.t_rank < t.length := by omega
  have htr1 : op.t_rank + 1 < t.length := by omega
  have hj0 : s.getD op.s_rank 0 < inp.jobs.length := hsroute _ (getD_mem s _ hsr0)
  have hj1 : s.getD (op.s_rank + 1) 0 < inp.jobs.length := hsroute _ (getD_mem s _ hsr1)
  have hj2 : t.getD op.t_rank 0 < inp.jobs.length := htroute _ (getD_mem t _ htr0)
  have hj3 : t.getD (op.t_rank + 1) 0 < inp.jobs.length := htroute _ (getD_mem t _ htr1)
  have hi0 : (inp.jobs.getD (s.getD op.s_rank 0) default).index < inp.matrix.size :=
    hjW _ (jobs_getD_mem inp.jobs _ hj0)
  have hi1 : (inp.jobs.getD (s.getD (op.s_rank + 1) 0) default).index < inp.matrix.size :=
    hjW _ (jobs_getD_mem inp.jobs _ hj1)
  have hi2 : (inp.jobs.getD (t.getD op.t_rank 0) default).index < inp.matrix.size :=
    hjW _ (jobs_getD_mem inp.jobs _ hj2)
  have hi3 : (inp.jobs.getD (t.getD (op.t_rank + 1) 0) default).index < inp.matrix.size :=
    hjW _ (jobs_getD_mem inp.jobs _ hj3)
  have hvs := hvW _ (vehicles_getD_mem inp.vehicles _ hsv)
  have hvt := hvW _ (vehicles_getD_mem inp.vehicles _ htv)
  simp only [compute_gain_checked, compute_gain,
    vehicles_get?_eq inp.vehicles _ hsv, vehicles_get?_eq inp.vehicles _ htv,
    natlist_get?_eq s _ hsr0, natlist_get?_eq s _ hsr1,
    natlist_get?_eq t _ htr0, natlist_get?_eq t _ htr1,
    jobs_get?_eq inp.jobs _ hj0, jobs_get?_eq inp.jobs _ hj1,
    jobs_get?_eq inp.jobs _ hj2, jobs_get?_eq inp.jobs _ hj3,
    prev_costs_checked_eq inp (inp.vehicles.getD op.s_vehicle default) s op.s_rank _ _
      hvs.1 hsroute hjW hi2 hi3 hsr0,
    next_costs_checked_eq inp (inp.vehicles.getD op.s_vehicle default) s op.s_rank _ _
      hvs.2 hsroute hjW hi3 hi2 hsr hs2,
    prev_costs_checked_eq inp (inp.vehicles.getD op.t_vehicle default) t op.t_rank _ _
      hvt.1 htroute hjW hi0 hi1 htr0,
    next_costs_checked_eq inp (inp.vehicles.getD op.t_vehicle default) t op.t_rank _ _
      hvt.2 htroute hjW hi1 hi0 htr ht2,
    mread?_eq inp.matrix _ _ hi2 hi3, mread?_eq inp.matrix _ _ hi3 hi2,
    mread?_eq inp.matrix _ _ hi0 hi1, mread?_eq inp.matrix _ _ hi1 hi0,
    jobIdx]

lemma is_valid_checked_eq (inp : Input) (ss : SolutionState) (s t : List Nat)
    (op : CrossExchange)
    (hsv : op.s_vehicle < inp.vehicles.length) (htv : op.t_vehicle < inp.vehicles.length)
    (hs2 : 2 ≤ s.length) (ht2 : 2 ≤ t.length)
    (hsr : op.s_rank < s.length - 1) (htr : op.t_rank < t.length - 1)
    (hsroute : ∀ r ∈ s, r < inp.jobs.length) (htroute : ∀ r ∈ t, r < inp.jobs.length) :
    is_valid_checked inp ss s t op = some (is_valid inp ss s t op) := by
  have hsr0 : op.s_rank < s.length := by omega
  have hsr1 : op.s_rank + 1 < s.length := by omega
  have htr0 : op.t_rank < t.length := by omega
  have htr1 : op.t_rank + 1 < t.length := by omega
  have hj0 : s.getD op.s_rank 0 < inp.jobs.length := hsroute _ (getD_mem s _ hsr0)
  have hj1 : s.getD (op.s_rank + 1) 0 < inp.jobs.length := hsroute _ (getD_mem s _ hsr1)
  have hj2 : t.getD op.t_rank 0 < inp.jobs.length := htroute _ (getD_mem t _ htr0)
  have hj3 : t.getD (op.t_rank + 1) 0 < inp.jobs.length := htroute _ (getD_mem t _ htr1)
  simp only [is_valid_checked, is_valid,
    natlist_get?_eq s _ hsr0, natlist_get?_eq s _ hsr1,
    natlist_get?_eq t _ htr0, natlist_get?_eq t _ htr1,
    jobs_get?_eq inp.jobs _ hj0, jobs_get?_eq inp.jobs _ hj1,
    jobs_get?_eq inp.jobs _ hj2, jobs_get?_eq inp.jobs _ hj3,
    vehicles_get?_eq inp.vehicles _ hsv, vehicles_get?_eq inp.vehicles _ htv]

lemma applyCE_checked_eq (op : CrossExchange) (s t : List Nat)
    (hs2 : 2 ≤ s.length) (ht2 : 2 ≤ t.length)
    (hsr : op.s_rank < s.length - 1) (htr : op.t_rank < t.length - 1) :
    applyCE_checked op s t = some (applyCE op s t) := by
  have hsr0 : op.s_rank < s.length := by omega
  have hsr1 : op.s_rank + 1 < s.length := by omega
  have htr0 : op.t_rank < t.length := by omega
  have htr1 : op.t_rank + 1 < t.length := by omega
  cases h1 : op.reverse_s_edge <;> cases h2 : op.reverse_t_edge <;>
    simp only [applyCE_checked, applyCE, h1, h2, Bool.false_eq_true, if_true, if_false,
      ite_true, ite_false, natlist_get?_eq, List.length_set, hsr0, hsr1, htr0, htr1]

/-- C10 (amended): under the constructor preconditions (distinct vehicles,
both routes of size at least 2, ranks below size - 1) together with instance
validity (vehicle indices within the fleet, route entries within the job
list, and every job and vehicle location index within the matrix — the
invariants established by input parsing), every route, job, vehicle and
matrix access performed by `compute_gain`, `is_valid` and `apply` is in
bounds: the bounds-checked evaluators return `some` of the unchecked
results. -/
theorem claim_C10_accesses_in_bounds (inp : Input) (ss : SolutionState)
    (s t : List Nat) (op : CrossExchange)
    (hne : op.s_vehicle ≠ op.t_vehicle)
    (hs2 : 2 ≤ s.length) (ht2 : 2 ≤ t.length)
    (hsr : op.s_rank < s.length - 1) (htr : op.t_rank < t.length - 1)
    (hW : inp.WF)
    (hsv : op.s_vehicle < inp.vehicles.length) (htv : op.t_vehicle < inp.vehicles.length)
    (hsroute : ∀ r ∈ s, r < inp.jobs.length) (htroute : ∀ r ∈ t, r < inp.jobs.length) :
    compute_gain_checked inp ss s t op = some (compute_gain inp ss s t op)
    ∧ is_valid_checked inp ss s t op = some (is_valid inp ss s t op)
    ∧ applyCE_checked op s t = some (applyCE op s t) :=
  ⟨compute_gain_checked_eq inp ss s t op hW hsv htv hs2 ht2 hsr htr hsroute htroute,
   is_valid_checked_eq inp ss s t op hsv htv hs2 ht2 hsr htr hsroute htroute,
   applyCE_checked_eq op s t hs2 ht2 hsr htr⟩

/-- An instance that satisfies all the constructor preconditions but is not
valid: every job location index (5) lies outside the 1-by-1 matrix. -/
def cex10_input : Input :=
  { geometry := false
    jobs := [⟨1, ⟨some 5, none⟩, 0, [], [], [defaultTimeWindow]⟩,
             ⟨2, ⟨some 5, none⟩, 0, [], [], [defaultTimeWindow]⟩,
             ⟨3, ⟨some 5, none⟩, 0, [], [], [defaultTimeWindow]⟩,
             ⟨4, ⟨some 5, none⟩, 0, [], [], [defaultTimeWindow]⟩]
    vehicles := [⟨0, none, none, [], [], defaultTimeWindow⟩,
                 ⟨1, none, none, [], [], defaultTimeWindow⟩]
    matrix := ⟨1, fun _ _ => 0⟩ }

def cex10_ss : SolutionState := ⟨fun _ => [[1]], fun _ _ => 0⟩

def cex10_s : List Nat := [0, 1]

def cex10_t : List Nat := [2, 3]

def cex10_op : CrossExchange := mkCrossExchange 0 0 1 0

/-- C10 (counterexample): the constructor preconditions alone do not put
every matrix access of `compute_gain` in bounds: on an instance whose job
location indices exceed the matrix size, all preconditions hold (and every
route entry is a valid job), yet the bounds-checked `compute_gain` reports an
out-of-bounds matrix access. -/
theorem claim_C10_counterexample :
    (cex10_op.s_vehicle ≠ cex10_op.t_vehicle
      ∧ 2 ≤ cex10_s.length ∧ 2 ≤ cex10_t.length
      ∧ cex10_op.s_rank < cex10_s.length - 1
      ∧ cex10_op.t_rank < cex10_t.length - 1
      ∧ (∀ r ∈ cex10_s, r < cex10_input.jobs.length)
      ∧ (∀ r ∈ cex10_t, r < cex10_input.jobs.length)
      ∧ cex10_op.s_vehicle < cex10_input.vehicles.length
      ∧ cex10_op.t_vehicle < cex10_input.vehicles.length)
    ∧ compute_gain_checked cex10_input cex10_ss cex10_s cex10_t cex10_op = none :=
  ⟨by decide, by decide⟩

/-- C10 (witness for the amended theorem): on the valid concrete instance the
three checked evaluators agree with the unchecked ones. -/
theorem claim_C10_witness :
    compute_gain_checked cex5_input cex5_ss cex5_s cex5_t cex5_op
        = some (compute_gain cex5_input cex5_ss cex5_s cex5_t cex5_op)
    ∧ is_valid_checked cex5_input cex5_ss cex5_s cex5_t cex5_op
        = some (is_valid cex5_input cex5_ss cex5_s cex5_t cex5_op)
    ∧ applyCE_checked cex5_op cex5_s cex5_t = some (applyCE cex5_op cex5_s cex5_t) :=
  claim_C10_accesses_in_bounds cex5_input cex5_ss cex5_s cex5_t cex5_op
    (by decide) (by decide) (by decide) (by decide) (by decide)
    ⟨by decide, by decide⟩ (by decide) (by decide) (by decide) (by decide)

/-! ### Input parsing (utils/input parsing routine)

The JSON document is modelled as an inductive value (the text-level rapidjson
parsing happens before the modelled code runs); every structural check of the
routine (`IsArray`, `IsUint`, sizes, index bounds, ...) is translated
faithfully, and errors are the `Except.error` branch with the C++ message. -/

/-- A parsed JSON value. Integer-valued numbers are `jint`; `jreal` stands
for a non-integral number (its payload only feeds `GetDouble` and is kept at
integer precision: no verified property depends on coordinate values). -/
inductive Json where
  | jnull : Json
  | jbool : Bool → Json
  | jint : Int → Json
  | jreal : Int → Json
  | jstr : String → Json
  | jarr : List Json → Json
  | jobj : List (String × Json) → Json

/-- Member lookup in a JSON object. -/
def Json.find : Json → String → Option Json
  | .jobj kvs, k => List.lookup k kvs
  | _, _ => none

/-- `HasMember`. -/
def Json.hasMember (j : Json) (k : String) : Bool := (j.find k).isSome

/-- `operator[]` on an object (only ever evaluated under `HasMember`). -/
def Json.mem (j : Json) (k : String) : Json := (j.find k).getD .jnull

/-- `IsArray`. -/
def Json.isArray : Json → Bool
  | .jarr _ => true
  | _ => false

/-- `IsObject`. -/
def Json.isObject : Json → Bool
  | .jobj _ => true
  | _ => false

/-- `GetArray` (only ever evaluated under `IsArray`). -/
def Json.arr : Json → List Json
  | .jarr a => a
  | _ => []

/-- `IsUint`: an integer representable as an unsigned 32-bit value. -/
def Json.isUint : Json → Bool
  | .jint n => decide (0 ≤ n ∧ n < 4294967296)
  | _ => false

/-- `IsUint64`. -/
def Json.isUint64 : Json → Bool
  | .jint n => decide (0 ≤ n ∧ n < 18446744073709551616)
  | _ => false

/-- `IsInt64`. -/
def Json.isInt64 : Json → Bool
  | .jint n => decide (-9223372036854775808 ≤ n ∧ n < 9223372036854775808)
  | _ => false

/-- `IsNumber`. -/
def Json.isNumber : Json → Bool
  | .jint _ => true
  | .jreal _ => true
  | _ => false

/-- `GetUint` (only ever evaluated under `IsUint`). -/
def Json.getUint : Json → Nat
  | .jint n => n.toNat
  | _ => 0

/-- `GetUint64`. -/
def Json.getUint64 : Json → Nat
  | .jint n => n.toNat
  | _ => 0

/-- `GetInt64`. -/
def Json.getInt64 : Json → Int
  | .jint n => n
  | _ => 0

/-- `GetDouble` (integer precision, see `Json`). -/
def Json.getDouble : Json → Int
  | .jint n => n
  | .jreal q => q
  | _ => 0

/-- `GetString`. -/
def Json.getStr : Json → String
  | .jstr s => s
  | _ => ""

/-- `parse_coordinates` (the helper at the top of the parsing routine). -/
def parse_coordinates (object : Json) (key : String) : Except String (Int × Int) :=
  if !(object.mem key).isArray || decide ((object.mem key).arr.length < 2)
      || !((object.mem key).arr.getD 0 .jnull).isNumber
      || !((object.mem key).arr.getD 1 .jnull).isNumber then
    .error ("Invalid " ++ key ++ " array.")
  else
    .ok (((object.mem key).arr.getD 0 .jnull).getDouble,
         ((object.mem key).arr.getD 1 .jnull).getDouble)

/-- `get_string` (asserts membership; returns the string value). -/
def get_string (object : Json) (key : String) : String := (object.mem key).getStr

/-- The entry loop of `get_amount`: each entry must be a signed 64-bit
integer. -/
def get_amount_values (key : String) : List Json → Except String (List Int)
  | [] => .ok []
  | e :: rest =>
    if !e.isInt64 then .error ("Invalid " ++ key ++ " value.")
    else do
      let tail ← get_amount_values key rest
      .ok (e.getInt64 :: tail)

/-- `get_amount`: default empty amount; else the key must hold an array of
64-bit integers. -/
def get_amount (object : Json) (key : String) : Except String (List Int) :=
  if object.hasMember key then
    if !(object.mem key).isArray then .error ("Invalid " ++ key ++ " array.")
    else get_amount_values key (object.mem key).arr
  else .ok []

/-- The entry loop of `get_skills` (an unordered set: inserting an already
present value keeps the set unchanged). -/
def get_skill_values : List Json → List Nat → Except String (List Nat)
  | [], acc => .ok acc
  | e :: rest, acc =>
    if !e.isUint then .error ("Invalid skill value.")
    else get_skill_values rest (if acc.contains e.getUint then acc else acc ++ [e.getUint])

/-- `get_skills`. -/
def get_skills (object : Json) : Except String (List Nat) :=
  if object.hasMember ("skills") then
    if !(object.mem ("skills")).isArray then .error ("Invalid skills object.")
    else get_skill_values (object.mem ("skills")).arr []
  else .ok []

/-- `get_service`. -/
def get_service (object : Json) : Except String Nat :=
  if object.hasMember ("service") then
    if !(object.mem ("service")).isUint then .error ("Invalid service value.")
    else .ok (object.mem ("service")).getUint
  else .ok 0

/-- `valid_vehicle`. -/
def valid_vehicle (v : Json) : Bool :=
  v.isObject && v.hasMember ("id") && (v.mem ("id")).isUint64

/-- `get_time_window`. -/
def get_time_window (tw : Json) : Except String TimeWindow :=
  if !tw.isArray || decide (tw.arr.length < 2) || !(tw.arr.getD 0 .jnull).isUint
      || !(tw.arr.getD 1 .jnull).isUint then
    .error ("Invalid time-window.")
  else .ok ⟨(tw.arr.getD 0 .jnull).getUint, (tw.arr.getD 1 .jnull).getUint⟩

/-- `get_vehicle_time_window`. -/
def get_vehicle_time_window (v : Json) : Except String TimeWindow :=
  if v.hasMember ("time_window") then get_time_window (v.mem ("time_window"))
  else .ok defaultTimeWindow

/-- The `std::transform` of `get_job_time_windows`: parse each time window in
order, stopping at the first invalid one. -/
def get_tw_list : List Json → Except String (List TimeWindow)
  | [] => .ok []
  | e :: rest => do
    let tw ← get_time_window e
    let tail ← get_tw_list rest
    .ok (tw :: tail)

/-- The `std::sort` of `get_job_time_windows`, modelled by insertion sort over
the spec-modelled time-window order `twLE`. -/
def twSort (l : List TimeWindow) : List TimeWindow := List.insertionSort twLE l

/-- `get_job_time_windows`: a missing key gives the single default window; an
array is parsed and then sorted before the job is constructed. -/
def get_job_time_windows (j : Json) : Except String (List TimeWindow) :=
  if j.hasMember ("time_windows") then
    if !(j.mem ("time_windows")).isArray then
      .error ("Invalid time_windows value for job " ++ toString (j.mem ("id")).getUint64 ++ ".")
    else do
      let tws ← get_tw_list (j.mem ("time_windows")).arr
      .ok (twSort tws)
  else .ok [defaultTimeWindow]

/-- Boolean comparison underlying the spec-modelled order `twLE`. -/
def twLEb (a b : TimeWindow) : Bool :=
  decide (a.start < b.start) || (decide (a.start = b.start) && decide (a.end_ ≤ b.end_))

/-- Boolean chain-sortedness check on a time-window list. -/
def twSortedB : List TimeWindow → Bool
  | a :: b :: rest => twLEb a b && twSortedB (b :: rest)
  | _ => true

/-- Modelled from the spec: the Job constructor (structures/vroom/job.cpp is
not under src/) validates at construction time that the time-window list is
non-empty and sorted ("every job time windows non-empty and sorted",
spec 7). -/
def mkJob (id : Nat) (location : LocationM) (service : Nat) (amount : List Int)
    (skills : List Nat) (tws : List TimeWindow) : Except String Job :=
  if tws.isEmpty then .error ("Empty time-windows for job " ++ toString id ++ ".")
  else if !(twSortedB tws) then
    .error ("Unsorted time-windows for job " ++ toString id ++ ".")
  else .ok ⟨id, location, service, amount, skills, tws⟩

/-- `DEFAULT_PROFILE`. -/
def DEFAULT_PROFILE : String := "car"

/-- The entry loop over one matrix line: every entry must be an unsigned
integer. -/
def parse_matrix_line (i : Nat) : Nat → List Json → Except String (List Nat)
  | _, [] => .ok []
  | jdx, e :: rest =>
    if !e.isUint then
      .error ("Invalid matrix entry (" ++ toString i ++ "," ++ toString jdx ++ ").")
    else do
      let tail ← parse_matrix_line i (jdx + 1) rest
      .ok (e.getUint :: tail)

/-- The matrix loop: each line must be an array of exactly `matrix_size`
unsigned integers. -/
def parse_matrix_rows (matrix_size : Nat) : Nat → List Json → Except String (List (List Nat))
  | _, [] => .ok []
  | i, r :: rest =>
    if !r.isArray || decide (r.arr.length ≠ matrix_size) then
      .error ("Invalid matrix line " ++ toString i ++ ".")
    else do
      let row ← parse_matrix_line i 0 r.arr
      let tail ← parse_matrix_rows matrix_size (i + 1) rest
      .ok (row :: tail)

/-- The `start_index` check of the explicit-matrix branch: the member, when
present, must be an unsigned integer below the matrix size; an absent member
leaves the default index 0. -/
def parse_start_index (matrix_size : Nat) (jv : Json) : Except String Nat :=
  if jv.hasMember ("start_index") then
    if !(jv.mem ("start_index")).isUint then
      .error ("Invalid start_index for vehicle " ++ toString (jv.mem ("id")).getUint ++ ".")
    else if decide (matrix_size ≤ (jv.mem ("start_index")).getUint) then
      .error ("start_index exceeding matrix size for vehicle"
        ++ toString (jv.mem ("id")).getUint ++ ".")
    else .ok (jv.mem ("start_index")).getUint
  else .ok 0

/-- The `end_index` check of the explicit-matrix branch. -/
def parse_end_index (matrix_size : Nat) (jv : Json) : Except String Nat :=
  if jv.hasMember ("end_index") then
    if !(jv.mem ("end_index")).isUint then
      .error ("Invalid end_index for vehicle" ++ toString (jv.mem ("id")).getUint ++ ".")
    else if decide (matrix_size ≤ (jv.mem ("end_index")).getUint) then
      .error ("end_index exceeding matrix size for vehicle"
        ++ toString (jv.mem ("id")).getUint ++ ".")
    else .ok (jv.mem ("end_index")).getUint
  else .ok 0

/-- The start location of the explicit-matrix branch: index always, optional
coordinates. -/
def parse_start_matrix (jv : Json) (start_index : Nat) :
    Except String (Option LocationM) :=
  if jv.hasMember ("start_index") then
    if jv.hasMember ("start") then do
      let c ← parse_coordinates jv ("start")
      .ok (some (LocationM.mk (some start_index) (some c)))
    else .ok (some (LocationM.mk (some start_index) none))
  else .ok none

/-- The end location of the explicit-matrix branch. -/
def parse_end_matrix (jv : Json) (end_index : Nat) :
    Except String (Option LocationM) :=
  if jv.hasMember ("end_index") then
    if jv.hasMember ("end") then do
      let c ← parse_coordinates jv ("end")
      .ok (some (LocationM.mk (some end_index) (some c)))
    else .ok (some (LocationM.mk (some end_index) none))
  else .ok none

/-- One vehicle of the explicit-matrix branch: id validity, the
`start_index` / `end_index` checks against the matrix size, optional
coordinates, capacity, skills and time window; the returned string is the
vehicle profile (profile consistency is enforced by the loop). -/
def parse_vehicle_matrix (matrix_size : Nat) (i : Nat) (jv : Json) :
    Except String (Vehicle × String) :=
  if !(valid_vehicle jv) then .error ("Invalid vehicle at " ++ toString i ++ ".")
  else do
    let start_index ← parse_start_index matrix_size jv
    let end_index ← parse_end_index matrix_size jv
    let start ← parse_start_matrix jv start_index
    let end_ ← parse_end_matrix jv end_index
    let capacity ← get_amount jv ("capacity")
    let skills ← get_skills jv
    let tw ← get_vehicle_time_window jv
    .ok (⟨(jv.mem ("id")).getUint, start, end_, capacity, skills, tw⟩,
      if jv.hasMember ("profile") then get_string jv ("profile") else DEFAULT_PROFILE)

/-- The running-profile check of the vehicle loops: the first vehicle sets
the common profile, later ones must agree with it. -/
def merge_profile (common p : String) : Except String String :=
  if common = "" then .ok p
  else if p ≠ common then .error ("Mixed vehicle profiles in input.")
  else .ok common

/-- The vehicle loop of the explicit-matrix branch, threading the common
profile (initially empty) and raising on mixed profiles. -/
def parse_vehicles_matrix (matrix_size : Nat) :
    Nat → String → List Json → Except String (List Vehicle × String)
  | _, common, [] => .ok ([], common)
  | i, common, jv :: rest => do
    let vp ← parse_vehicle_matrix matrix_size i jv
    let common2 ← merge_profile common vp.2
    let tail ← parse_vehicles_matrix matrix_size (i + 1) common2 rest
    .ok (vp.1 :: tail.1, tail.2)

/-- One job of the explicit-matrix branch: object and id validity, the
`location_index` check against the matrix size, then service, amount, skills,
time windows and the Job construction. -/
def parse_job_matrix (matrix_size : Nat) (i : Nat) (jj : Json) : Except String Job :=
  if !jj.isObject then .error ("Invalid job.")
  else if !(jj.hasMember ("id")) || !(jj.mem ("id")).isUint64 then
    .error ("Invalid id for job at " ++ toString i ++ ".")
  else if !(jj.hasMember ("location_index")) || !(jj.mem ("location_index")).isUint then
    .error ("Invalid location_index for job " ++ toString (jj.mem ("id")).getUint64 ++ ".")
  else if decide (matrix_size ≤ (jj.mem ("location_index")).getUint) then
    .error ("location_index exceeding matrix size for job "
      ++ toString (jj.mem ("id")).getUint64 ++ ".")
  else do
    let job_loc ←
      if jj.hasMember ("location") then do
        let c ← parse_coordinates jj ("location")
        .ok (LocationM.mk (some (jj.mem ("location_index")).getUint) (some c))
      else .ok (LocationM.mk (some (jj.mem ("location_index")).getUint) none)
    let service ← get_service jj
    let amount ← get_amount jj ("amount")
    let skills ← get_skills jj
    let tws ← get_job_time_windows jj
    mkJob (jj.mem ("id")).getUint64 job_loc service amount skills tws

/-- The job loop of the explicit-matrix branch. -/
def parse_jobs_matrix (matrix_size : Nat) : Nat → List Json → Except String (List Job)
  | _, [] => .ok []
  | i, jj :: rest => do
    let job ← parse_job_matrix matrix_size i jj
    let tail ← parse_jobs_matrix matrix_size (i + 1) rest
    .ok (job :: tail)

/-- One vehicle of the no-matrix branch (locations by coordinates only). -/
def parse_vehicle_nomatrix (i : Nat) (jv : Json) : Except String (Vehicle × String) :=
  if !(valid_vehicle jv) then .error ("Invalid vehicle at " ++ toString i ++ ".")
  else do
    let start ←
      if jv.hasMember ("start") then do
        let c ← parse_coordinates jv ("start")
        .ok (some (LocationM.mk none (some c)))
      else .ok none
    let end_ ←
      if jv.hasMember ("end") then do
        let c ← parse_coordinates jv ("end")
        .ok (some (LocationM.mk none (some c)))
      else .ok none
    let capacity ← get_amount jv ("capacity")
    let skills ← get_skills jv
    let tw ← get_vehicle_time_window jv
    .ok (⟨(jv.mem ("id")).getUint, start, end_, capacity, skills, tw⟩,
      if jv.hasMember ("profile") then get_string jv ("profile") else DEFAULT_PROFILE)

/-- The vehicle loop of the no-matrix branch. -/
def parse_vehicles_nomatrix :
    Nat → String → List Json → Except String (List Vehicle × String)
  | _, common, [] => .ok ([], common)
  | i, common, jv :: rest => do
    let vp ← parse_vehicle_nomatrix i jv
    let common2 ← merge_profile common vp.2
    let tail ← parse_vehicles_nomatrix (i + 1) common2 rest
    .ok (vp.1 :: tail.1, tail.2)

/-- One job of the no-matrix branch (a location by coordinates is
mandatory). -/
def parse_job_nomatrix (i : Nat) (jj : Json) : Except String Job :=
  if !jj.isObject then .error ("Invalid job.")
  else if !(jj.hasMember ("id")) || !(jj.mem ("id")).isUint64 then
    .error ("Invalid id for job at " ++ toString i ++ ".")
  else if !(jj.hasMember ("location")) || !(jj.mem ("location")).isArray then
    .error ("Invalid location for job " ++ toString (jj.mem ("id")).getUint64 ++ ".")
  else do
    let c ← parse_coordinates jj ("location")
    let service ← get_service jj
    let amount ← get_amount jj ("amount")
    let skills ← get_skills jj
    let tws ← get_job_time_windows jj
    mkJob (jj.mem ("id")).getUint64 (LocationM.mk none (some c)) service amount skills tws

/-- The job loop of the no-matrix branch. -/
def parse_jobs_nomatrix : Nat → List Json → Except String (List Job)
  | _, [] => .ok []
  | i, jj :: rest => do
    let job ← parse_job_nomatrix i jj
    let tail ← parse_jobs_nomatrix (i + 1) rest
    .ok (job :: tail)

/-- The routing backend selector (`-r`). -/
inductive RouterKind where
  | OSRM : RouterKind
  | LIBOSRM : RouterKind
  | ORS : RouterKind

/-- The command-line arguments consumed by `parse` (structures/cl_args.h):
the already-text-parsed input document, the router choice, the configured
servers by profile name, and a flag standing for whether the external
libosrm shared-memory construction succeeds. -/
structure CLArgsM where
  geometry : Bool
  input : Json
  router : RouterKind
  servers : List (String × Unit)
  libosrm_ok : Bool

/-- The routing-wrapper selection at the end of `parse`: OSRM and ORS look
the common profile up among the configured servers; LIBOSRM construction
depends on the external library. -/
def set_routing (cl : CLArgsM) (common_profile : String) : Except String Unit :=
  match cl.router with
  | .OSRM =>
    if (List.lookup common_profile cl.servers).isSome then .ok ()
    else .error ("Invalid profile: " ++ common_profile ++ ".")
  | .LIBOSRM =>
    if cl.libosrm_ok then .ok ()
    else .error ("Invalid shared memory region: " ++ common_profile)
  | .ORS =>
    if (List.lookup common_profile cl.servers).isSome then .ok ()
    else .error ("Invalid profile: " ++ common_profile ++ ".")

/-- `parse` (utils/input parsing routine): jobs and vehicles presence checks,
then either the explicit-matrix branch (matrix, vehicles with index bounds,
jobs with index bounds) or the coordinates-only branch, then the routing
wrapper; returns the populated `Input`. -/
def parse (cl : CLArgsM) : Except String Input :=
  if !(cl.input.hasMember ("jobs")) || !(cl.input.mem ("jobs")).isArray
      || (cl.input.mem ("jobs")).arr.isEmpty then
    .error ("Invalid jobs.")
  else if !(cl.input.hasMember ("vehicles")) || !(cl.input.mem ("vehicles")).isArray
      || (cl.input.mem ("vehicles")).arr.isEmpty then
    .error ("Invalid vehicles.")
  else if cl.input.hasMember ("matrix") then
    if !(cl.input.mem ("matrix")).isArray then .error ("Invalid matrix.")
    else do
      let mrows ← parse_matrix_rows (cl.input.mem ("matrix")).arr.length 0
        (cl.input.mem ("matrix")).arr
      let vp ← parse_vehicles_matrix (cl.input.mem ("matrix")).arr.length 0 ("")
        (cl.input.mem ("vehicles")).arr
      let jobs ← parse_jobs_matrix (cl.input.mem ("matrix")).arr.length 0
        (cl.input.mem ("jobs")).arr
      let _ ← set_routing cl vp.2
      .ok ⟨cl.geometry, jobs, vp.1,
        ⟨(cl.input.mem ("matrix")).arr.length, fun a b => (mrows.getD a []).getD b 0⟩⟩
  else do
    let vp ← parse_vehicles_nomatrix 0 ("") (cl.input.mem ("vehicles")).arr
    let jobs ← parse_jobs_nomatrix 0 (cl.input.mem ("jobs")).arr
    let _ ← set_routing cl vp.2
    .ok ⟨cl.geometry, jobs, vp.1, ⟨0, fun _ _ => 0⟩⟩

/-! ### Inversion lemmas for the parsing routine -/

lemma except_bind_ok {α β : Type} {e : Except String α} {f : α → Except String β}
    {b : β} : (e >>= f) = .ok b ↔ ∃ a, e = .ok a ∧ f a = .ok b := by
  cases e <;> simp [Bind.bind, Except.bind]

lemma get_job_time_windows_ok (j : Json) (tws : List TimeWindow)
    (h : get_job_time_windows j = .ok tws) :
    List.Sorted twLE tws
    ∧ (j.find ("time_windows") = none → tws = [defaultTimeWindow]) := by
  rw [get_job_time_windows] at h
  by_cases hm : j.hasMember ("time_windows")
  · rw [if_pos hm] at h
    by_cases ha : (j.mem ("time_windows")).isArray
    · rw [if_neg (by simp [ha])] at h
      rw [except_bind_ok] at h
      obtain ⟨raw, hraw, hok⟩ := h
      have heq : twSort raw = tws := Except.ok.inj hok
      subst heq
      exact ⟨List.sorted_insertionSort twLE raw,
        fun hf => absurd hm (by simp [Json.hasMember, hf])⟩
    · rw [if_pos (by simp [ha])] at h
      simp at h
  · rw [if_neg hm] at h
    have heq : [defaultTimeWindow] = tws := Except.ok.inj h
    subst heq
    exact ⟨List.sorted_singleton _, fun _ => rfl⟩

lemma mkJob_ok (id : Nat) (loc : LocationM) (service : Nat) (amount : List Int)
    (skills : List Nat) (tws : List TimeWindow) (job : Job)
    (h : mkJob id loc service amount skills tws = .ok job) :
    job.tws = tws ∧ tws ≠ [] := by
  rw [mkJob] at h
  by_cases he : tws.isEmpty
  · rw [if_pos he] at h
    simp at h
  · rw [if_neg he] at h
    by_cases hs : twSortedB tws
    · rw [if_neg (by simp [hs])] at h
      have heq := Except.ok.inj h
      subst heq
      exact ⟨rfl, fun hnil => he (by simp [hnil])⟩
    · rw [if_pos (by simp [hs])] at h
      simp at h

lemma parse_job_matrix_tws (msize i : Nat) (jj : Json) (job : Job)
    (h : parse_job_matrix msize i jj = .ok job) :
    ∃ tws, get_job_time_windows jj = .ok tws ∧ job.tws = tws ∧ tws ≠ [] := by
  rw [parse_job_matrix] at h
  split at h
  · simp at h
  · split at h
    · simp at h
    · split at h
      · simp at h
      · split at h
        · simp at h
        · split at h
          · simp only [except_bind_ok] at h
            obtain ⟨c, _, loc, _, srv, _, amt, _, sk, _, tws, htws, hmk⟩ := h
            obtain ⟨hjt, hnn⟩ := mkJob_ok _ _ _ _ _ _ _ hmk
            exact ⟨tws, htws, hjt, hnn⟩
          · simp only [except_bind_ok] at h
            obtain ⟨loc, _, srv, _, amt, _, sk, _, tws, htws, hmk⟩ := h
            obtain ⟨hjt, hnn⟩ := mkJob_ok _ _ _ _ _ _ _ hmk
            exact ⟨tws, htws, hjt, hnn⟩

lemma parse_job_nomatrix_tws (i : Nat) (jj : Json) (job : Job)
    (h : parse_job_nomatrix i jj = .ok job) :
    ∃ tws, get_job_time_windows jj = .ok tws ∧ job.tws = tws ∧ tws ≠ [] := by
  rw [parse_job_nomatrix] at h
  split at h
  · simp at h
  · split at h
    · simp at h
    · split at h
      · simp at h
      · rw [except_bind_ok] at h
        obtain ⟨c, _, h⟩ := h
        rw [except_bind_ok] at h
        obtain ⟨srv, _, h⟩ := h
        rw [except_bind_ok] at h
        obtain ⟨amt, _, h⟩ := h
        rw [except_bind_ok] at h
        obtain ⟨sk, _, h⟩ := h
        rw [except_bind_ok] at h
        obtain ⟨tws, htws, hmk⟩ := h
        obtain ⟨hjt, hnn⟩ := mkJob_ok _ _ _ _ _ _ _ hmk
        exact ⟨tws, htws, hjt, hnn⟩

/-- C8: every job accepted by parse has a non-empty time-window list sorted
in ascending order; when the input gives no `time_windows` key the list is
the single default window, and when it gives an array the parsed windows are
sorted before the job is constructed. -/
theorem claim_C8_job_time_windows (msize i : Nat) (jj : Json) (job : Job)
    (h : parse_job_matrix msize i jj = .ok job ∨ parse_job_nomatrix i jj = .ok job) :
    job.tws ≠ [] ∧ List.Sorted twLE job.tws
    ∧ (jj.find ("time_windows") = none → job.tws = [defaultTimeWindow]) := by
  have hex : ∃ tws, get_job_time_windows jj = .ok tws ∧ job.tws = tws ∧ tws ≠ [] := by
    rcases h with h | h
    · exact parse_job_matrix_tws msize i jj job h
    · exact parse_job_nomatrix_tws i jj job h
  obtain ⟨tws, htws, hjt, hnn⟩ := hex
  obtain ⟨hsorted, hdef⟩ := get_job_time_windows_ok jj tws htws
  rw [hjt]
  exact ⟨hnn, hsorted, hdef⟩

/-- A concrete job object whose two time windows arrive unsorted. -/
def cex8_job : Json := .jobj [(("id"), .jint 7), (("location_index"), .jint 0),
  (("time_windows"), .jarr [.jarr [.jint 5, .jint 6], .jarr [.jint 1, .jint 2]])]

/-- The job that the explicit-matrix branch builds from `cex8_job`. -/
def cex8_jobW : Job := ⟨7, ⟨some 0, none⟩, 0, [], [], [⟨1, 2⟩, ⟨5, 6⟩]⟩

/-- C8 (witness): the concrete unsorted two-window job is accepted with its
windows sorted. -/
theorem claim_C8_witness :
    cex8_jobW.tws ≠ [] ∧ List.Sorted twLE cex8_jobW.tws
    ∧ (cex8_job.find ("time_windows") = none → cex8_jobW.tws = [defaultTimeWindow]) :=
  claim_C8_job_time_windows 1 0 cex8_job cex8_jobW (Or.inl (by rfl))

lemma parse_matrix_line_ok (i : Nat) (jdx : Nat) (es : List Json) (row : List Nat)
    (h : parse_matrix_line i jdx es = .ok row) : ∀ e ∈ es, e.isUint = true := by
  induction es generalizing jdx row with
  | nil => simp
  | cons e rest ih =>
    simp only [parse_matrix_line] at h
    split at h
    · simp at h
    · rename_i hc
      rw [except_bind_ok] at h
      obtain ⟨tail, htail, _⟩ := h
      intro x hx
      rcases List.mem_cons.mp hx with hx | hx
      · subst hx; simpa using hc
      · exact ih _ _ htail x hx

lemma parse_matrix_rows_ok (n i : Nat) (rs : List Json) (mrows : List (List Nat))
    (h : parse_matrix_rows n i rs = .ok mrows) :
    ∀ r ∈ rs, r.isArray = true ∧ r.arr.length = n ∧ ∀ e ∈ r.arr, e.isUint = true := by
  induction rs generalizing i mrows with
  | nil => simp
  | cons r rest ih =>
    simp only [parse_matrix_rows] at h
    split at h
    · simp at h
    · rename_i hc
      simp only [Bool.or_eq_true, Bool.not_eq_true, decide_eq_true_eq, not_or] at hc
      rw [except_bind_ok] at h
      obtain ⟨row, hrow, h⟩ := h
      rw [except_bind_ok] at h
      obtain ⟨tail, htail, _⟩ := h
      intro x hx
      rcases List.mem_cons.mp hx with hx | hx
      · subst hx
        refine ⟨by simpa using hc.1, by simpa using hc.2, parse_matrix_line_ok i 0 x.arr row hrow⟩
      · exact ih _ _ htail x hx

lemma parse_start_index_ok (n : Nat) (jv : Json) (si : Nat)
    (h : parse_start_index n jv = .ok si)
    (hm : jv.hasMember ("start_index") = true) :
    (jv.mem ("start_index")).isUint = true ∧ (jv.mem ("start_index")).getUint < n := by
  rw [parse_start_index, if_pos hm] at h
  split at h
  · simp at h
  · split at h
    · simp at h
    · rename_i h1 h2
      have h1b : (jv.mem ("start_index")).isUint = true := by simpa using h1
      have h2b : ¬ (n ≤ (jv.mem ("start_index")).getUint) := by simpa using h2
      exact ⟨h1b, by omega⟩

lemma parse_end_index_ok (n : Nat) (jv : Json) (ei : Nat)
    (h : parse_end_index n jv = .ok ei)
    (hm : jv.hasMember ("end_index") = true) :
    (jv.mem ("end_index")).isUint = true ∧ (jv.mem ("end_index")).getUint < n := by
  rw [parse_end_index, if_pos hm] at h
  split at h
  · simp at h
  · split at h
    · simp at h
    · rename_i h1 h2
      have h1b : (jv.mem ("end_index")).isUint = true := by simpa using h1
      have h2b : ¬ (n ≤ (jv.mem ("end_index")).getUint) := by simpa using h2
      exact ⟨h1b, by omega⟩

lemma parse_vehicle_matrix_ok (n i : Nat) (jv : Json) (vp : Vehicle × String)
    (h : parse_vehicle_matrix n i jv = .ok vp) :
    (jv.hasMember ("start_index") = true →
      (jv.mem ("start_index")).isUint = true ∧ (jv.mem ("start_index")).getUint < n)
    ∧ (jv.hasMember ("end_index") = true →
      (jv.mem ("end_index")).isUint = true ∧ (jv.mem ("end_index")).getUint < n) := by
  rw [parse_vehicle_matrix] at h
  split at h
  · simp at h
  · simp only [except_bind_ok] at h
    obtain ⟨si, hsi, ei, hei, _⟩ := h
    exact ⟨parse_start_index_ok n jv si hsi, parse_end_index_ok n jv ei hei⟩

lemma parse_vehicles_matrix_ok (n : Nat) (i : Nat) (common : String) (vs : List Json)
    (out : List Vehicle × String) (h : parse_vehicles_matrix n i common vs = .ok out) :
    ∀ jv ∈ vs,
      (jv.hasMember ("start_index") = true →
        (jv.mem ("start_index")).isUint = true ∧ (jv.mem ("start_index")).getUint < n)
      ∧ (jv.hasMember ("end_index") = true →
        (jv.mem ("end_index")).isUint = true ∧ (jv.mem ("end_index")).getUint < n) := by
  induction vs generalizing i common out with
  | nil => simp
  | cons jv rest ih =>
    simp only [parse_vehicles_matrix] at h
    simp only [except_bind_ok] at h
    obtain ⟨vp, hvp, c2, _, tail, htail, _⟩ := h
    intro x hx
    rcases List.mem_cons.mp hx with hx | hx
    · subst hx; exact parse_vehicle_matrix_ok n i x vp hvp
    · exact ih _ _ _ htail x hx

lemma parse_job_matrix_idx_ok (n i : Nat) (jj : Json) (job : Job)
    (h : parse_job_matrix n i jj = .ok job) :
    jj.hasMember ("location_index") = true
    ∧ (jj.mem ("location_index")).isUint = true
    ∧ (jj.mem ("location_index")).getUint < n := by
  rw [parse_job_matrix] at h
  split at h
  · simp at h
  · split at h
    · simp at h
    · split at h
      · simp at h
      · split at h
        · simp at h
        · rename_i h1 h2 h3 h4
          simp only [Bool.or_eq_true, Bool.not_eq_true, not_or] at h3
          have h4b : ¬ (n ≤ (jj.mem ("location_index")).getUint) := by simpa using h4
          exact ⟨by simpa using h3.1, by simpa using h3.2, by omega⟩

lemma parse_jobs_matrix_ok (n : Nat) (i : Nat) (js : List Json) (jobs : List Job)
    (h : parse_jobs_matrix n i js = .ok jobs) :
    ∀ jj ∈ js,
      jj.hasMember ("location_index") = true
      ∧ (jj.mem ("location_index")).isUint = true
      ∧ (jj.mem ("location_index")).getUint < n := by
  induction js generalizing i jobs with
  | nil => simp
  | cons jj rest ih =>
    simp only [parse_jobs_matrix] at h
    simp only [except_bind_ok] at h
    obtain ⟨job, hjob, tail, htail, _⟩ := h
    intro x hx
    rcases List.mem_cons.mp hx with hx | hx
    · subst hx; exact parse_job_matrix_idx_ok n i x job hjob
    · exact ih _ _ htail x hx

/-- C7: on an input carrying an explicit `matrix`, `parse` returns an error —
never an `Input` — whenever the matrix is not square (some line is not an
array of exactly `matrix.size()` entries), some matrix entry is not an
unsigned integer, some vehicle `start_index` or `end_index` reaches the
matrix size, or some job `location_index` reaches the matrix size. -/
theorem claim_C7_parse_validates_matrix (cl : CLArgsM)
    (hm : cl.input.hasMember ("matrix") = true)
    (hbad :
      (∃ r ∈ (cl.input.mem ("matrix")).arr,
          r.isArray = false ∨ r.arr.length ≠ (cl.input.mem ("matrix")).arr.length)
      ∨ (∃ r ∈ (cl.input.mem ("matrix")).arr, ∃ e ∈ r.arr, e.isUint = false)
      ∨ (∃ jv ∈ (cl.input.mem ("vehicles")).arr,
          (jv.hasMember ("start_index") = true
            ∧ (cl.input.mem ("matrix")).arr.length ≤ (jv.mem ("start_index")).getUint)
          ∨ (jv.hasMember ("end_index") = true
            ∧ (cl.input.mem ("matrix")).arr.length ≤ (jv.mem ("end_index")).getUint))
      ∨ (∃ jj ∈ (cl.input.mem ("jobs")).arr,
          (cl.input.mem ("matrix")).arr.length ≤ (jj.mem ("location_index")).getUint)) :
    ∃ msg, parse cl = .error msg := by
  cases hp : parse cl with
  | error msg => exact ⟨msg, rfl⟩
  | ok inp =>
    exfalso
    rw [parse] at hp
    split at hp
    · simp at hp
    · split at hp
      · simp at hp
      · split at hp
        · simp at hp
        · simp only [except_bind_ok] at hp
          obtain ⟨mrows, hmrows, vp, hvp, jobs, hjobs, _⟩ := hp
          rcases hbad with hb | hb | hb | hb
          · obtain ⟨r, hr, hbadr⟩ := hb
            obtain ⟨ha, hl, _⟩ := parse_matrix_rows_ok _ _ _ _ hmrows r hr
            rcases hbadr with hb2 | hb2
            · rw [ha] at hb2; simp at hb2
            · exact hb2 hl
          · obtain ⟨r, hr, e, he, hbe⟩ := hb
            obtain ⟨_, _, hu⟩ := parse_matrix_rows_ok _ _ _ _ hmrows r hr
            rw [hu e he] at hbe
            simp at hbe
          · obtain ⟨jv, hjv, hb2⟩ := hb
            have hv := parse_vehicles_matrix_ok _ _ _ _ _ hvp jv hjv
            rcases hb2 with ⟨hmem, hge⟩ | ⟨hmem, hge⟩
            · have := (hv.1 hmem).2; omega
            · have := (hv.2 hmem).2; omega
          · obtain ⟨jj, hjj, hge⟩ := hb
            have hj := parse_jobs_matrix_ok _ _ _ _ hjobs jj hjj
            have := hj.2.2; omega

/-- A concrete input whose explicit matrix is not square: the second line has
one entry where the first has two. -/
def cex7_cl : CLArgsM :=
  ⟨false,
   .jobj [(("jobs"), .jarr [.jobj [(("id"), .jint 1), (("location_index"), .jint 0)]]),
          (("vehicles"), .jarr [.jobj [(("id"), .jint 1)]]),
          (("matrix"), .jarr [.jarr [.jint 0, .jint 1], .jarr [.jint 2]])],
   .OSRM, [(("car"), ())], true⟩

/-- C7 (witness): parse rejects the concrete non-square-matrix input. -/
theorem claim_C7_witness : ∃ msg, parse cex7_cl = .error msg :=
  claim_C7_parse_validates_matrix cex7_cl (by decide)
    (Or.inl (by decide))

/-- A two-vehicle, four-job instance used to evaluate the gain identity on
concrete data: vehicle 0 runs from matrix index 0 to matrix index 5, vehicle
1 has no start and no end; jobs 0..3 sit at matrix indices 1..4; matrix
entry `(i, j)` costs `i + 2 j`. -/
def cex1_input : Input :=
  { geometry := false
    jobs := [⟨1, ⟨some 1, none⟩, 0, [], [], [defaultTimeWindow]⟩,
             ⟨2, ⟨some 2, none⟩, 0, [], [], [defaultTimeWindow]⟩,
             ⟨3, ⟨some 3, none⟩, 0, [], [], [defaultTimeWindow]⟩,
             ⟨4, ⟨some 4, none⟩, 0, [], [], [defaultTimeWindow]⟩]
    vehicles := [⟨0, some ⟨some 0, none⟩, some ⟨some 5, none⟩, [10], [], defaultTimeWindow⟩,
                 ⟨1, none, none, [10], [], defaultTimeWindow⟩]
    matrix := ⟨6, fun i j => i + 2 * j⟩ }

/-- A solution state whose `edge_costs_around_edge` caches hold their defined
values on the routes `[0, 1]` of vehicle 0 and `[2, 3]` of vehicle 1. -/
def cex1_ss : SolutionState :=
  ⟨fun _ => [[1]], fun v _ => if v = 0 then 14 else 0⟩

def cex1_s : List Nat := [0, 1]

def cex1_t : List Nat := [2, 3]

def cex1_op : CrossExchange := mkCrossExchange 0 0 1 0

/-- C1 (witness): the gain identity evaluated on the concrete two-route
instance. -/
theorem claim_C1_witness :
    (compute_gain cex1_input cex1_ss cex1_s cex1_t cex1_op).stored_gain
      = (routeCost cex1_input (cex1_input.vehicles.getD cex1_op.s_vehicle default) cex1_s
          + routeCost cex1_input (cex1_input.vehicles.getD cex1_op.t_vehicle default) cex1_t)
        - (routeCost cex1_input (cex1_input.vehicles.getD cex1_op.s_vehicle default)
              (applyCE (compute_gain cex1_input cex1_ss cex1_s cex1_t cex1_op)
                cex1_s cex1_t).1
            + routeCost cex1_input (cex1_input.vehicles.getD cex1_op.t_vehicle default)
              (applyCE (compute_gain cex1_input cex1_ss cex1_s cex1_t cex1_op)
                cex1_s cex1_t).2) :=
  claim_C1_cross_exchange_gain cex1_input cex1_ss cex1_s cex1_t cex1_op
    [] [] [] [] 0 1 2 3 rfl rfl rfl rfl rfl rfl (by decide) (by decide)

def cex2_input : Input := ⟨false, [], [], ⟨0, fun _ _ => 0⟩⟩

def cex2_ss : SolutionState := ⟨fun _ => [], fun _ _ => 0⟩

def cex2_s : List Nat := [0, 1]

def cex2_t : List Nat := [2, 3]

def cex2_op : CrossExchange := mkCrossExchange 0 0 1 0

/-- C2 (witness): the orientation-selection identities evaluated on a
concrete move. -/
theorem claim_C2_witness :
    (compute_gain cex2_input cex2_ss cex2_s cex2_t cex2_op).stored_gain
        = max (compute_gain cex2_input cex2_ss cex2_s cex2_t cex2_op).normal_s_gain
            (compute_gain cex2_input cex2_ss cex2_s cex2_t cex2_op).reversed_s_gain
          + max (compute_gain cex2_input cex2_ss cex2_s cex2_t cex2_op).normal_t_gain
              (compute_gain cex2_input cex2_ss cex2_s cex2_t cex2_op).reversed_t_gain
      ∧ ((compute_gain cex2_input cex2_ss cex2_s cex2_t cex2_op).reverse_t_edge = true
          ↔ (compute_gain cex2_input cex2_ss cex2_s cex2_t cex2_op).normal_s_gain
              < (compute_gain cex2_input cex2_ss cex2_s cex2_t cex2_op).reversed_s_gain)
      ∧ ((compute_gain cex2_input cex2_ss cex2_s cex2_t cex2_op).reverse_s_edge = true
          ↔ (compute_gain cex2_input cex2_ss cex2_s cex2_t cex2_op).normal_t_gain
              < (compute_gain cex2_input cex2_ss cex2_s cex2_t cex2_op).reversed_t_gain) :=
  claim_C2_orientation_selection cex2_input cex2_ss cex2_s cex2_t cex2_op rfl rfl

def cex3_s : List Nat := [0, 1]

def cex3_t : List Nat := [2, 3]

def cex3_op : CrossExchange := mkCrossExchange 0 0 1 0

/-- C3 (witness): the placement identity of `apply()` evaluated on a concrete
move. -/
theorem claim_C3_witness :
    applyCE cex3_op cex3_s cex3_t
      = ([] ++ (if cex3_op.reverse_t_edge then 3 :: 2 :: ([] : List Nat)
          else 2 :: 3 :: ([] : List Nat)),
         [] ++ (if cex3_op.reverse_s_edge then 1 :: 0 :: ([] : List Nat)
          else 0 :: 1 :: ([] : List Nat))) :=
  claim_C3_apply_places_edges cex3_op [] [] [] [] 0 1 2 3 cex3_s cex3_t rfl rfl rfl rfl

def cex6_s : List Nat := [4, 5]

def cex6_t : List Nat := [6, 7]

def cex6_op : CrossExchange := mkCrossExchange 0 0 1 0

/-- C6 (witness): job-multiset and length preservation of `apply()` evaluated
on a concrete move. -/
theorem claim_C6_witness :
    (((applyCE cex6_op cex6_s cex6_t).1 : Multiset Nat)
          + ((applyCE cex6_op cex6_s cex6_t).2 : Multiset Nat)
        = (cex6_s : Multiset Nat) + (cex6_t : Multiset Nat))
      ∧ (applyCE cex6_op cex6_s cex6_t).1.length = cex6_s.length
      ∧ (applyCE cex6_op cex6_s cex6_t).2.length = cex6_t.length :=
  claim_C6_apply_preserves_jobs cex6_op [] [] [] [] 4 5 6 7 cex6_s cex6_t rfl rfl rfl rfl

/-- A one-dimension-amount instance for the validity test: four jobs of
amount `[1]`, two vehicles of capacity `[10]` with no skills demanded. -/
def cex4_input : Input :=
  { geometry := false
    jobs := [⟨1, ⟨some 1, none⟩, 0, [1], [], [defaultTimeWindow]⟩,
             ⟨2, ⟨some 2, none⟩, 0, [1], [], [defaultTimeWindow]⟩,
             ⟨3, ⟨some 3, none⟩, 0, [1], [], [defaultTimeWindow]⟩,
             ⟨4, ⟨some 4, none⟩, 0, [1], [], [defaultTimeWindow]⟩]
    vehicles := [⟨0, none, none, [10], [], defaultTimeWindow⟩,
                 ⟨1, none, none, [10], [], defaultTimeWindow⟩]
    matrix := ⟨6, fun _ _ => 0⟩ }

def cex4_ss : SolutionState := ⟨fun _ => [[2]], fun _ _ => 0⟩

def cex4_s : List Nat := [0, 1]

def cex4_t : List Nat := [2, 3]

def cex4_op : CrossExchange := mkCrossExchange 0 0 1 0

/-- C4 (witness): the validity characterisation evaluated on the concrete
one-dimension instance. -/
theorem claim_C4_witness :
    (is_valid cex4_input cex4_ss cex4_s cex4_t cex4_op = true ↔
      ((cex4_input.vehicle_ok_with_job cex4_op.t_vehicle
          (cex4_s.getD cex4_op.s_rank 0) = true
        ∧ cex4_input.vehicle_ok_with_job cex4_op.t_vehicle
            (cex4_s.getD (cex4_op.s_rank + 1) 0) = true
        ∧ cex4_input.vehicle_ok_with_job cex4_op.s_vehicle
            (cex4_t.getD cex4_op.t_rank 0) = true
        ∧ cex4_input.vehicle_ok_with_job cex4_op.s_vehicle
            (cex4_t.getD (cex4_op.t_rank + 1) 0) = true)
       ∧ (∀ i, i < 1 →
            ((cex4_ss.fwd_amounts cex4_op.s_vehicle).getLastD []).getD i 0
              - (cex4_input.jobs.getD (cex4_s.getD cex4_op.s_rank 0) default).amount.getD i 0
              - (cex4_input.jobs.getD
                  (cex4_s.getD (cex4_op.s_rank + 1) 0) default).amount.getD i 0
              + (cex4_input.jobs.getD (cex4_t.getD cex4_op.t_rank 0) default).amount.getD i 0
              + (cex4_input.jobs.getD
                  (cex4_t.getD (cex4_op.t_rank + 1) 0) default).amount.getD i 0
            ≤ (cex4_input.vehicles.getD cex4_op.s_vehicle default).capacity.getD i 0)
       ∧ (∀ i, i < 1 →
            ((cex4_ss.fwd_amounts cex4_op.t_vehicle).getLastD []).getD i 0
              - (cex4_input.jobs.getD (cex4_t.getD cex4_op.t_rank 0) default).amount.getD i 0
              - (cex4_input.jobs.getD
                  (cex4_t.getD (cex4_op.t_rank + 1) 0) default).amount.getD i 0
              + (cex4_input.jobs.getD (cex4_s.getD cex4_op.s_rank 0) default).amount.getD i 0
              + (cex4_input.jobs.getD
                  (cex4_s.getD (cex4_op.s_rank + 1) 0) default).amount.getD i 0
            ≤ (cex4_input.vehicles.getD cex4_op.t_vehicle default).capacity.getD i 0))) :=
  claim_C4_is_valid_iff cex4_input cex4_ss cex4_s cex4_t cex4_op 1
    rfl rfl rfl rfl rfl rfl rfl rfl

end vroom
